import Mathlib

/-!
# MakeController firmware: serial framing, socket reads and the network configuration store

A shallow embedding of

* `firmware/branches/chibios/core/makingthings/usbserial.c`
  (`usbserialRead`, `usbserialOnRx`, `usbserialWrite`, `usbserialReadSlip`,
  `usbserialWriteSlip`, `usbserialWriteSlipIfFull`), and
* `firmware/tags/firmware-v1.10.04/controller/makingthings/network.c`
  (`Network_Set*`, `Network_Get*`, `Network_SetValid`, `Network_GetValid`, `SocketRead`,
  `Network_Init`, `Network_SetActive`, `Network_AddressConvert`, `NetworkOsc_PropertySet`,
  `NetworkOsc_PropertyGet`).

Conventions.  A C `char` is a byte kept as a `Nat` (the ARM target has unsigned `char`, so
`0300` compares equal to a received byte 192).  A C `int` that is only counted upwards from
zero is a `Nat`; one that can receive `-1` is an `Int`.  A 32-bit word stored in EEPROM is the
`Nat` below `2^32` of its bit pattern, and `int` additions on such words wrap modulo `2^32`.
Arrays are lists; static and global variables are fields of an explicit state record; the USB
driver, the lwIP connection and the EEPROM are explicit environment records.
-/

namespace MakeController

/-! ## Network configuration store (`network.c`) -/

/-- The constant `CONTROLLER_OK` of `error.h`; the source documents it as `0` ("@return 0 on
success"). -/
def CONTROLLER_OK : Int := 0

/-- The macro `IP_ADDRESS( a, b, c, d )` of `network.c` line 39:
`( (int)d << 24 ) + ( (int)c << 16 ) + ( (int)b << 8 ) + (int)a`, as a 32-bit pattern. -/
def IP_ADDRESS (a b c d : Int) : Nat :=
  ((d * 16777216 + c * 65536 + b * 256 + a) % 4294967296).toNat

/-- Modelled from the spec: `IP_ADDRESS_A` of the absent `network.h`, the extractor of the first
octet, inverse to the `IP_ADDRESS` packing (the lowest byte of the word). -/
def IP_ADDRESS_A (address : Nat) : Int := ((address % 256 : Nat) : Int)

/-- Modelled from the spec: `IP_ADDRESS_B` of the absent `network.h`, the second octet
(bits 8..15 of the word). -/
def IP_ADDRESS_B (address : Nat) : Int := ((address / 256 % 256 : Nat) : Int)

/-- Modelled from the spec: `IP_ADDRESS_C` of the absent `network.h`, the third octet
(bits 16..23 of the word). -/
def IP_ADDRESS_C (address : Nat) : Int := ((address / 65536 % 256 : Nat) : Int)

/-- Modelled from the spec: `IP_ADDRESS_D` of the absent `network.h`, the fourth octet
(bits 24..31 of the word). -/
def IP_ADDRESS_D (address : Nat) : Int := ((address / 16777216 % 256 : Nat) : Int)

/-- The EEPROM keys used by `network.c`. -/
inductive EepromKey where
  | EEPROM_SYSTEM_NET_ADDRESS
  | EEPROM_SYSTEM_NET_MASK
  | EEPROM_SYSTEM_NET_GATEWAY
  | EEPROM_SYSTEM_NET_CHECK
  | EEPROM_TCP_REMOTE_ADDRESS
deriving DecidableEq, Repr

/-- The persistent store: one 4-byte word under each key. -/
structure Eeprom where
  netAddress : Nat
  netMask : Nat
  netGateway : Nat
  netCheck : Nat
  tcpRemoteAddress : Nat
deriving DecidableEq, Repr

/-- Modelled from the spec: `Eeprom_Write( key, (uchar*)&value, 4 )` of the absent `eeprom.c`,
the backing store's `write(key, bytes)`: the four bytes of `value` replace the word under
`key`. -/
def Eeprom_Write (e : Eeprom) (key : EepromKey) (value : Nat) : Eeprom :=
  match key with
  | EepromKey.EEPROM_SYSTEM_NET_ADDRESS => { e with netAddress := value % 4294967296 }
  | EepromKey.EEPROM_SYSTEM_NET_MASK => { e with netMask := value % 4294967296 }
  | EepromKey.EEPROM_SYSTEM_NET_GATEWAY => { e with netGateway := value % 4294967296 }
  | EepromKey.EEPROM_SYSTEM_NET_CHECK => { e with netCheck := value % 4294967296 }
  | EepromKey.EEPROM_TCP_REMOTE_ADDRESS => { e with tcpRemoteAddress := value % 4294967296 }

/-- Modelled from the spec: `Eeprom_Read( key, (uchar*)&value, 4 )` of the absent `eeprom.c`,
the backing store's `read(key) -> bytes`: the word under `key`, four bytes wide. -/
def Eeprom_Read (e : Eeprom) (key : EepromKey) : Nat :=
  match key with
  | EepromKey.EEPROM_SYSTEM_NET_ADDRESS => e.netAddress % 4294967296
  | EepromKey.EEPROM_SYSTEM_NET_MASK => e.netMask % 4294967296
  | EepromKey.EEPROM_SYSTEM_NET_GATEWAY => e.netGateway % 4294967296
  | EepromKey.EEPROM_SYSTEM_NET_CHECK => e.netCheck % 4294967296
  | EepromKey.EEPROM_TCP_REMOTE_ADDRESS => e.tcpRemoteAddress % 4294967296

/-- The anonymous enum of `network.c` line 54. -/
inductive NetValid where
  | NET_UNCHECKED
  | NET_INVALID
  | NET_VALID
deriving DecidableEq, Repr

/-- The globals of `network.c` together with the EEPROM they are persisted in. -/
structure NetworkState where
  Network_Active : Int
  Network_Valid : NetValid
  eeprom : Eeprom
deriving DecidableEq, Repr

/-- Four octets handed back through the `int*` parameters of a getter. -/
structure Octets where
  a0 : Int
  a1 : Int
  a2 : Int
  a3 : Int
deriving DecidableEq, Repr

/-- Source function `Network_SetAddress` (lines 137-147). -/
def Network_SetAddress (st : NetworkState) (a0 a1 a2 a3 : Int) : Int × NetworkState :=
  let address := IP_ADDRESS a0 a1 a2 a3
  let e := Eeprom_Write st.eeprom EepromKey.EEPROM_SYSTEM_NET_ADDRESS address
  (CONTROLLER_OK, { st with eeprom := e, Network_Valid := NetValid.NET_INVALID })

/-- Source function `Network_SetMask` (lines 209-219). -/
def Network_SetMask (st : NetworkState) (a0 a1 a2 a3 : Int) : Int × NetworkState :=
  let address := IP_ADDRESS a0 a1 a2 a3
  let e := Eeprom_Write st.eeprom EepromKey.EEPROM_SYSTEM_NET_MASK address
  (CONTROLLER_OK, { st with eeprom := e, Network_Valid := NetValid.NET_INVALID })

/-- Source function `Network_SetGateway` (lines 243-253). -/
def Network_SetGateway (st : NetworkState) (a0 a1 a2 a3 : Int) : Int × NetworkState :=
  let address := IP_ADDRESS a0 a1 a2 a3
  let e := Eeprom_Write st.eeprom EepromKey.EEPROM_SYSTEM_NET_GATEWAY address
  (CONTROLLER_OK, { st with eeprom := e, Network_Valid := NetValid.NET_INVALID })

/-- Source function `Network_SetValid` (lines 266-291).  With `v` non-zero the checksum
`address + mask + gateway` is stored and the flag becomes `NET_VALID`; with `v` zero a checksum
of zero is stored and the flag is left as it is. -/
def Network_SetValid (st : NetworkState) (v : Int) : Int × NetworkState :=
  if v ≠ 0 then
    let address := Eeprom_Read st.eeprom EepromKey.EEPROM_SYSTEM_NET_ADDRESS
    let mask := Eeprom_Read st.eeprom EepromKey.EEPROM_SYSTEM_NET_MASK
    let gateway := Eeprom_Read st.eeprom EepromKey.EEPROM_SYSTEM_NET_GATEWAY
    let total := (address + mask + gateway) % 4294967296
    let e := Eeprom_Write st.eeprom EepromKey.EEPROM_SYSTEM_NET_CHECK total
    (CONTROLLER_OK, { st with eeprom := e, Network_Valid := NetValid.NET_VALID })
  else
    let value := 0
    let e := Eeprom_Write st.eeprom EepromKey.EEPROM_SYSTEM_NET_CHECK value
    (CONTROLLER_OK, { st with eeprom := e })

/-- Source function `Network_GetValid` (lines 299-323). -/
def Network_GetValid (st : NetworkState) : Int × NetworkState :=
  let address := Eeprom_Read st.eeprom EepromKey.EEPROM_SYSTEM_NET_ADDRESS
  let mask := Eeprom_Read st.eeprom EepromKey.EEPROM_SYSTEM_NET_MASK
  let gateway := Eeprom_Read st.eeprom EepromKey.EEPROM_SYSTEM_NET_GATEWAY
  let total := Eeprom_Read st.eeprom EepromKey.EEPROM_SYSTEM_NET_CHECK
  if total = (address + mask + gateway) % 4294967296 then
    (1, { st with Network_Valid := NetValid.NET_VALID })
  else
    (0, { st with Network_Valid := NetValid.NET_INVALID })

/-- The first statement of every getter (lines 337-338): a flag still `NET_UNCHECKED` is
settled by `Network_GetValid`. -/
def checkIfUnchecked (st : NetworkState) : NetworkState :=
  if st.Network_Valid = NetValid.NET_UNCHECKED then (Network_GetValid st).2 else st

/-- Source function `Network_GetAddress` (lines 335-359). -/
def Network_GetAddress (st : NetworkState) : Int × Octets × NetworkState :=
  let st1 := checkIfUnchecked st
  if st1.Network_Valid = NetValid.NET_INVALID then
    (CONTROLLER_OK, ⟨192, 168, 0, 200⟩, st1)
  else
    let address := Eeprom_Read st1.eeprom EepromKey.EEPROM_SYSTEM_NET_ADDRESS
    (CONTROLLER_OK,
      ⟨IP_ADDRESS_A address, IP_ADDRESS_B address, IP_ADDRESS_C address, IP_ADDRESS_D address⟩,
      st1)

/-- Source function `Network_GetMask` (lines 410-434). -/
def Network_GetMask (st : NetworkState) : Int × Octets × NetworkState :=
  let st1 := checkIfUnchecked st
  if st1.Network_Valid = NetValid.NET_INVALID then
    (CONTROLLER_OK, ⟨255, 255, 255, 0⟩, st1)
  else
    let address := Eeprom_Read st1.eeprom EepromKey.EEPROM_SYSTEM_NET_MASK
    (CONTROLLER_OK,
      ⟨IP_ADDRESS_A address, IP_ADDRESS_B address, IP_ADDRESS_C address, IP_ADDRESS_D address⟩,
      st1)

/-- Source function `Network_GetGateway` (lines 446-470). -/
def Network_GetGateway (st : NetworkState) : Int × Octets × NetworkState :=
  let st1 := checkIfUnchecked st
  if st1.Network_Valid = NetValid.NET_INVALID then
    (CONTROLLER_OK, ⟨192, 168, 0, 1⟩, st1)
  else
    let address := Eeprom_Read st1.eeprom EepromKey.EEPROM_SYSTEM_NET_GATEWAY
    (CONTROLLER_OK,
      ⟨IP_ADDRESS_A address, IP_ADDRESS_B address, IP_ADDRESS_C address, IP_ADDRESS_D address⟩,
      st1)

/-! ## USB serial port with SLIP framing (`usbserial.c`) -/

/-- SLIP code `END` (octal 0300): indicates end of packet. -/
def END : Nat := 192

/-- SLIP code `ESC` (octal 0333): indicates byte stuffing. -/
def ESC : Nat := 219

/-- SLIP code `ESC_END` (octal 0334): ESC ESC_END means END data byte. -/
def ESC_END : Nat := 220

/-- SLIP code `ESC_ESC` (octal 0335): ESC ESC_ESC means ESC data byte. -/
def ESC_ESC : Nat := 221

/-- The constants that `usbserial.c` takes from headers outside the source tree: the sizes of
the receive and transmit units and the error code of `error.h`. -/
structure UsbConfig where
  USBSER_MAX_READ : Nat
  USBSER_MAX_WRITE : Nat
  CONTROLLER_ERROR_BAD_FORMAT : Int
deriving DecidableEq, Repr

/-- What the USB driver does with one `USBD_Read` request. -/
inductive RxOutcome where
  /-- The call `USBD_Read` did not return `USBD_STATUS_SUCCESS`. -/
  | rejected
  /-- The request was accepted and `chSemWaitTimeout` ended without `RDY_OK`. -/
  | noCallback
  /-- The driver put `bytes` at the start of the request buffer and called `usbserialOnRx`
  with the given status and `received = bytes.length`. -/
  | callback (statusOk : Bool) (bytes : List Nat)
deriving DecidableEq, Repr

/-- What the USB driver does with one `USBD_Write` request. -/
inductive TxOutcome where
  /-- The call `USBD_Write` did not return `USBD_STATUS_SUCCESS`. -/
  | rejected
  /-- The request was accepted and `usbserialOnTx` was not called before the timeout. -/
  | noCallback
  /-- The driver called `usbserialOnTx` with the given status, `received` and `remaining`. -/
  | callback (statusOk : Bool) (received remaining : Nat)
deriving DecidableEq, Repr

/-- The USB device as seen from `usbserial.c`. -/
structure UsbWorld where
  /-- Whether `USBD_GetState()` is `USBD_STATE_CONFIGURED`. -/
  configured : Bool
  /-- The outcomes of the `USBD_Read` requests still to come; none left means nothing arrives. -/
  rxq : List RxOutcome
  /-- The outcomes of the `USBD_Write` requests still to come. -/
  txq : List TxOutcome
  /-- Ghost log: the buffers handed to `usbserialWrite` so far, oldest first. -/
  wlog : List (List Nat)
deriving DecidableEq, Repr

/-- The `UsbSerial_t` structure (lines 40-52) without its semaphores, together with the
`static int idx` of `usbserialReadSlip` (line 244). -/
structure UsbSerial where
  justGot : Int
  justWrote : Int
  rxBufCount : Int
  rxBuf : List Nat
  slipOutBuf : List Nat
  slipInBuf : List Nat
  slipInCount : Int
  idx : Nat
deriving DecidableEq, Repr

/-- The call `memcpy( dst + off, src, n )` on arrays kept as lists. -/
def memcpy (dst : List Nat) (off : Nat) (src : List Nat) (n : Nat) : List Nat :=
  dst.take off ++ src.take n ++ dst.drop (off + n)

/-- Source function `usbserialOnRx` (lines 176-185); signalling the semaphore is part of the
`RxOutcome`. -/
def usbserialOnRx (s : UsbSerial) (statusOk : Bool) (received : Nat) : UsbSerial :=
  if statusOk then
    { s with rxBufCount := s.rxBufCount + received, justGot := received }
  else s

/-- The value and the effects of one call of `usbserialRead` or `usbserialReadSlip`. -/
structure ReadResult where
  rv : Int
  buffer : List Nat
  world : UsbWorld
  serial : UsbSerial
deriving DecidableEq, Repr

/-- Source function `usbserialRead` (lines 146-173).  `buffer` is the caller's array; the
advancing pointer
`buffer += copylen` is the offset `off`. -/
def usbserialRead (cfg : UsbConfig) (w : UsbWorld) (s : UsbSerial) (buffer : List Nat)
    (length : Int) : ReadResult :=
  if w.configured = false then ⟨-1, buffer, w, s⟩
  else
    let length_to_go := length
    -- lines 151-157: do we already have some lying around?
    let copylen := if s.rxBufCount ≠ 0 then min s.rxBufCount length_to_go else 0
    let buffer1 := if s.rxBufCount ≠ 0 then memcpy buffer 0 s.rxBuf copylen.toNat else buffer
    let off := copylen.toNat
    let s1 := { s with rxBufCount := s.rxBufCount - copylen }
    let length_to_go1 := length_to_go - copylen
    -- lines 158-171: if we still would like to get more
    if length_to_go1 ≠ 0 then
      match w.rxq with
      | [] => ⟨length - length_to_go1, buffer1, w, s1⟩
      | RxOutcome.rejected :: q => ⟨length - length_to_go1, buffer1, { w with rxq := q }, s1⟩
      | RxOutcome.noCallback :: q => ⟨length - length_to_go1, buffer1, { w with rxq := q }, s1⟩
      | RxOutcome.callback statusOk bytes :: q =>
        let got := bytes.take cfg.USBSER_MAX_READ
        let s2 := usbserialOnRx { s1 with rxBuf := memcpy s1.rxBuf 0 got got.length }
          statusOk got.length
        let copylen2 := min s2.justGot length_to_go1
        let buffer2 := memcpy buffer1 off s2.rxBuf copylen2.toNat
        let s3 := { s2 with rxBufCount := s2.rxBufCount - copylen2, justGot := 0 }
        ⟨length - (length_to_go1 - copylen2), buffer2, { w with rxq := q }, s3⟩
    else ⟨length - length_to_go1, buffer1, w, s1⟩

/-- Source function `usbserialOnTx` (lines 215-223); the second component tells whether the
semaphore was
signalled (`remaining <= 0` on an unsigned). -/
def usbserialOnTx (s : UsbSerial) (statusOk : Bool) (received remaining : Nat) :
    UsbSerial × Bool :=
  (if statusOk then { s with justWrote := s.justWrote + received } else s,
    decide (remaining = 0))

/-- The value and the effects of one call of `usbserialWrite` or `usbserialWriteSlip`. -/
structure WriteResult where
  rv : Int
  world : UsbWorld
  serial : UsbSerial
deriving DecidableEq, Repr

/-- Source function `usbserialWrite` (lines 199-212).  The first `length` bytes of `buffer` are
what the call
hands to the driver; they are appended to the ghost log whatever the outcome. -/
def usbserialWrite (w : UsbWorld) (s : UsbSerial) (buffer : List Nat) (length : Nat) :
    WriteResult :=
  let w1 := { w with wlog := w.wlog ++ [buffer.take length] }
  if w.configured then
    match w.txq with
    | [] => ⟨-1, w1, s⟩
    | TxOutcome.rejected :: q => ⟨-1, { w1 with txq := q }, s⟩
    | TxOutcome.noCallback :: q => ⟨-1, { w1 with txq := q }, s⟩
    | TxOutcome.callback statusOk received remaining :: q =>
      let r := usbserialOnTx s statusOk received remaining
      if r.2 then ⟨r.1.justWrote, { w1 with txq := q }, { r.1 with justWrote := 0 }⟩
      else ⟨-1, { w1 with txq := q }, r.1⟩
  else ⟨-1, w1, s⟩

/-- Lines 248-251 of `usbserialReadSlip`: if there is nothing left over from last time, get
more. -/
def slipFetch (cfg : UsbConfig) (w : UsbWorld) (s : UsbSerial) : UsbWorld × UsbSerial :=
  if (s.idx : Int) ≥ s.slipInCount then
    let r := usbserialRead cfg w s s.slipInBuf (cfg.USBSER_MAX_READ : Int)
    (r.world, { r.serial with slipInBuf := r.buffer, slipInCount := r.rv, idx := 0 })
  else (w, s)

/-- The `while (received < length)` loop of `usbserialReadSlip` (lines 247-276); one unit of
fuel per evaluation of the loop condition, `none` when the fuel runs out before the function
returns. -/
def usbserialReadSlipLoop (cfg : UsbConfig) (length : Int) :
    Nat → UsbWorld → UsbSerial → List Nat → Nat → Option ReadResult
  | 0, _, _, _, _ => none
  | fuel + 1, w, s, buffer, received =>
    if (received : Int) < length then
      let f := slipFetch cfg w s
      let c := f.2.slipInBuf.getD f.2.idx 0
      let s2 := { f.2 with idx := f.2.idx + 1 }
      if c = END then
        if received ≠ 0 then some ⟨received, buffer, f.1, s2⟩
        else usbserialReadSlipLoop cfg length fuel f.1 s2 buffer received
      else if c = ESC then
        if (s2.idx : Int) ≥ s2.slipInCount then
          usbserialReadSlipLoop cfg length fuel f.1 s2 buffer received
        else
          let c2 := s2.slipInBuf.getD s2.idx 0
          let s3 := { s2 with idx := s2.idx + 1 }
          let c3 := if c2 = ESC_END then END else if c2 = ESC_ESC then ESC else c2
          usbserialReadSlipLoop cfg length fuel f.1 s3 (buffer.set received c3) (received + 1)
      else
        usbserialReadSlipLoop cfg length fuel f.1 s2 (buffer.set received c) (received + 1)
    else some ⟨cfg.CONTROLLER_ERROR_BAD_FORMAT, buffer, w, s⟩

/-- Source function `usbserialReadSlip` (lines 241-277) run with `fuel` loop iterations
available. -/
def usbserialReadSlip (cfg : UsbConfig) (fuel : Nat) (w : UsbWorld) (s : UsbSerial)
    (buffer : List Nat) (length : Int) : Option ReadResult :=
  usbserialReadSlipLoop cfg length fuel w s buffer 0

/-- The locals `obp` (as an index into `slipOutBuf`) and `count` of `usbserialWriteSlip`,
with the state they are used on. -/
structure SlipOut where
  world : UsbWorld
  serial : UsbSerial
  obp : Nat
  count : Int
deriving DecidableEq, Repr

/-- The store `*obp++ = c` into `slipOutBuf`; `none` when `obp` is outside the array
`char slipOutBuf[USBSER_MAX_WRITE]`. -/
def putOut (cfg : UsbConfig) (st : SlipOut) (c : Nat) : Option SlipOut :=
  if st.obp < cfg.USBSER_MAX_WRITE then
    some { st with
      serial := { st.serial with slipOutBuf := st.serial.slipOutBuf.set st.obp c }
      obp := st.obp + 1 }
  else none

/-- Source function `usbserialWriteSlipIfFull` (lines 334-343) on `*bufptr - buf = st.obp`,
with the caller's
`count += ...` applied to the result. -/
def usbserialWriteSlipIfFull (cfg : UsbConfig) (st : SlipOut) : SlipOut :=
  let bufSize := st.obp
  if bufSize ≥ cfg.USBSER_MAX_WRITE then
    let r := usbserialWrite st.world st.serial st.serial.slipOutBuf bufSize
    ⟨r.world, r.serial, 0, st.count + r.rv⟩
  else { st with count := st.count + 0 }

/-- The pair `*obp++ = c; count += usbserialWriteSlipIfFull( &obp, ... );` of the encoder. -/
def emit (cfg : UsbConfig) (st : SlipOut) (c : Nat) : Option SlipOut :=
  (putOut cfg st c).map (usbserialWriteSlipIfFull cfg)

/-- The `while (length--)` loop of `usbserialWriteSlip` (lines 300-324) over the bytes still
to be sent. -/
def usbserialWriteSlipLoop (cfg : UsbConfig) : List Nat → SlipOut → Option SlipOut
  | [], st => some st
  | c :: rest, st =>
    if c = END then
      (emit cfg st ESC).bind fun st1 =>
        (emit cfg st1 ESC_END).bind (usbserialWriteSlipLoop cfg rest)
    else if c = ESC then
      (emit cfg st ESC).bind fun st1 =>
        (emit cfg st1 ESC_ESC).bind (usbserialWriteSlipLoop cfg rest)
    else
      (emit cfg st c).bind (usbserialWriteSlipLoop cfg rest)

/-- Source function `usbserialWriteSlip` (lines 295-329) on the payload `buffer` (`length` is
its length);
`none` when a store falls outside `slipOutBuf`. -/
def usbserialWriteSlip (cfg : UsbConfig) (w : UsbWorld) (s : UsbSerial) (buffer : List Nat) :
    Option WriteResult :=
  (putOut cfg ⟨w, s, 0, 0⟩ END).bind fun st0 =>
    (usbserialWriteSlipLoop cfg buffer st0).bind fun st1 =>
      (putOut cfg st1 END).map fun st2 =>
        let r := usbserialWrite st2.world st2.serial st2.serial.slipOutBuf st2.obp
        ⟨st2.count + r.rv, r.world, r.serial⟩

/-! ## TCP stream reads (`network.c`, `SocketRead`) -/

/-- The two fields that `network.c` adds to lwIP's `struct netconn` "to help with reading":
the retained receive buffer (`NULL` is `none`) and the offset of its first unread byte. -/
structure Netconn where
  readingbuf : Option (List Nat)
  readingoffset : Int
deriving DecidableEq, Repr

/-- The lwIP connection as seen from `SocketRead`: what the `netconn_recv` calls still to come
return, `none` for `NULL`; with nothing left `netconn_recv` returns `NULL`. -/
structure NetWorld where
  recvq : List (Option (List Nat))
deriving DecidableEq, Repr

/-- The lwIP call `netbuf_len( buf )`: the number of bytes in the buffer. -/
def netbuf_len (buf : List Nat) : Int := (buf.length : Int)

/-- The lwIP call `netbuf_copy_partial( buf, data, len, offset )`: copies at most `len` bytes of
the buffer, starting at `offset`, to the start of `data`. -/
def netbuf_copy_partial (buf : List Nat) (data : List Nat) (len : Int) (offset : Int) :
    List Nat :=
  let src := (buf.drop offset.toNat).take len.toNat
  src ++ data.drop src.length

/-- The lwIP macro `netbuf_copy( buf, data, len )`: `netbuf_copy_partial` at offset `0`. -/
def netbuf_copy (buf : List Nat) (data : List Nat) (len : Int) : List Nat :=
  netbuf_copy_partial buf data len 0

/-- The value and the effects of one call of `SocketRead`. -/
structure SocketReadResult where
  rv : Int
  data : List Nat
  conn : Netconn
  world : NetWorld
deriving DecidableEq, Repr

/-- Source function `SocketRead` (lines 529-577). -/
def SocketRead (w : NetWorld) (conn : Netconn) (data : List Nat) (length : Int) :
    SocketReadResult :=
  match conn.readingbuf with
  | none =>
    match w.recvq with
    | [] => ⟨0, data, conn, w⟩
    | none :: q => ⟨0, data, conn, ⟨q⟩⟩
    | some buf :: q =>
      let buflen := netbuf_len buf
      let data1 := netbuf_copy buf data length
      -- Test to see if the buffer is done, or needs to be saved
      if buflen ≤ length then ⟨buflen, data1, conn, ⟨q⟩⟩
      else ⟨length, data1, { conn with readingbuf := some buf, readingoffset := length }, ⟨q⟩⟩
  | some buf =>
    let buflen := netbuf_len buf - conn.readingoffset
    let data1 := netbuf_copy_partial buf data length conn.readingoffset
    if buflen ≤ length then ⟨buflen, data1, { conn with readingbuf := none }, w⟩
    else ⟨length, data1, { conn with readingoffset := conn.readingoffset + length }, w⟩

/-! ## Definitions used to state the properties -/

/-- The getters serve the factory defaults 192.168.0.200, 255.255.255.0 and 192.168.0.1 and
the validity flag is `NET_INVALID`. -/
def servesFactoryDefaults (st : NetworkState) : Prop :=
  st.Network_Valid = NetValid.NET_INVALID ∧
  (Network_GetAddress st).2.1 = ⟨192, 168, 0, 200⟩ ∧
  (Network_GetMask st).2.1 = ⟨255, 255, 255, 0⟩ ∧
  (Network_GetGateway st).2.1 = ⟨192, 168, 0, 1⟩

/-- The connection and the lwIP world after `k` successive calls
`SocketRead( socket, data, length )`, each made with the caller's buffer `data`. -/
def socketReads (data : List Nat) (length : Int) : Nat → NetWorld → Netconn → NetWorld × Netconn
  | 0, w, conn => (w, conn)
  | k + 1, w, conn =>
    let st := socketReads data length k w conn
    let r := SocketRead st.1 st.2 data length
    (r.world, r.conn)

/-- Byte stuffing of one payload byte, in the words of the wire format: `END` becomes
`ESC, ESC_END`, `ESC` becomes `ESC, ESC_ESC`, every other byte is copied verbatim. -/
def stuffByte (c : Nat) : List Nat :=
  if c = END then [ESC, ESC_END] else if c = ESC then [ESC, ESC_ESC] else [c]

/-- Byte stuffing of a payload. -/
def stuff (b : List Nat) : List Nat := b.flatMap stuffByte

/-- The two states of the reference decoder of the specification. -/
inductive SlipState where
  | NORMAL
  | ESCAPED
deriving DecidableEq, Repr

/-- What the reference decoder reports: a complete payload, "more bytes needed", or the
bounded-buffer failure. -/
inductive DecodeResult where
  | payload (p : List Nat)
  | incomplete
  | overflow
deriving DecidableEq, Repr

/-- The reference decoder, written from the specification and not from `usbserialReadSlip`:
it consumes the whole stream one byte at a time; a delimiter in `NORMAL` completes the frame
when bytes were accumulated and is a non-event otherwise; `ESC` switches to `ESCAPED`, where
the following byte is mapped back to `END` or `ESC` or kept verbatim; decoding past
`max_length` is the bounded-buffer failure. -/
def slipDecodeRef (max_length : Nat) : SlipState → List Nat → List Nat → DecodeResult
  | _, _, [] => DecodeResult.incomplete
  | SlipState.NORMAL, acc, c :: stream =>
    if c = END then
      if acc ≠ [] then DecodeResult.payload acc
      else slipDecodeRef max_length SlipState.NORMAL acc stream
    else if c = ESC then slipDecodeRef max_length SlipState.ESCAPED acc stream
    else if acc.length < max_length then
      slipDecodeRef max_length SlipState.NORMAL (acc ++ [c]) stream
    else DecodeResult.overflow
  | SlipState.ESCAPED, acc, c :: stream =>
    if acc.length < max_length then
      slipDecodeRef max_length SlipState.NORMAL
        (acc ++ [if c = ESC_END then END else if c = ESC_ESC then ESC else c]) stream
    else DecodeResult.overflow

/-- The constants as documented for the board: receive and transmit units of 64 bytes ("64 is
the max that can be read at one time"); `-1` stands in for the error code of the absent
`error.h`, whose value no statement below depends on. -/
def cfg64 : UsbConfig := ⟨64, 64, -1⟩

/-- The `UsbSerial_t` structure after `usbserialInit`, its arrays zeroed, before any traffic. -/
def freshSerial (cfg : UsbConfig) : UsbSerial :=
  ⟨0, 0, 0, List.replicate cfg.USBSER_MAX_READ 0, List.replicate cfg.USBSER_MAX_WRITE 0,
    List.replicate cfg.USBSER_MAX_READ 0, 0, 0⟩

/-- A configured USB link on which the host sends the given receive units, one per
`USBD_Read`, and nothing afterwards. -/
def hostSends (units : List (List Nat)) : UsbWorld :=
  ⟨true, units.map (RxOutcome.callback true), [], []⟩

/-- What a stretch of the encoder did: `out` was appended to the bytes written or waiting in
`slipOutBuf`, every unit written has between 1 and `USBSER_MAX_WRITE` bytes, and the write
position is again inside the array. -/
structure Emitted (cfg : UsbConfig) (st st' : SlipOut) (out : List Nat) : Prop where
  obp_lt : st'.obp < cfg.USBSER_MAX_WRITE
  size : st'.serial.slipOutBuf.length = cfg.USBSER_MAX_WRITE
  log : ∃ ws, st'.world.wlog = st.world.wlog ++ ws ∧
    (∀ x ∈ ws, 1 ≤ x.length ∧ x.length ≤ cfg.USBSER_MAX_WRITE) ∧
    ws.flatten ++ st'.serial.slipOutBuf.take st'.obp = st.serial.slipOutBuf.take st.obp ++ out

/-- The decoder is being fed: `cur` are the bytes of `slipInBuf` not yet looked at, `rest` the
receive units still to come, ahead of whatever `q` holds. -/
structure Feeding (w : UsbWorld) (s : UsbSerial) (cur : List Nat) (rest : List (List Nat))
    (q : List RxOutcome) : Prop where
  conf : w.configured = true
  rxq : w.rxq = rest.map (RxOutcome.callback true) ++ q
  cnt : s.rxBufCount = 0
  drained : cur = [] → (s.idx : Int) ≥ s.slipInCount
  pending : cur ≠ [] → ∃ pre post, s.slipInBuf = pre ++ cur ++ post ∧ s.idx = pre.length ∧
    s.slipInCount = ((pre.length + cur.length : Nat) : Int)

/-- No receive unit is empty, longer than `USBSER_MAX_READ`, or ends in `ESC`. -/
def ChunksOk (cfg : UsbConfig) (cur : List Nat) (rest : List (List Nat)) : Prop :=
  cur.getLast? ≠ some ESC ∧
    ∀ c ∈ rest, c ≠ [] ∧ c.length ≤ cfg.USBSER_MAX_READ ∧ c.getLast? ≠ some ESC

/-! ## Sequences of configuration calls and power cycles -/

/-- A call of one of the configuration functions of `network.c`, with its arguments. -/
inductive NetCall where
  | setAddress (a0 a1 a2 a3 : Int)
  | setMask (a0 a1 a2 a3 : Int)
  | setGateway (a0 a1 a2 a3 : Int)
  | setValid (v : Int)
  | getValid
  | getAddress
  | getMask
  | getGateway
deriving DecidableEq, Repr

/-- The state after one configuration call. -/
def netStep (st : NetworkState) : NetCall → NetworkState
  | NetCall.setAddress a0 a1 a2 a3 => (Network_SetAddress st a0 a1 a2 a3).2
  | NetCall.setMask a0 a1 a2 a3 => (Network_SetMask st a0 a1 a2 a3).2
  | NetCall.setGateway a0 a1 a2 a3 => (Network_SetGateway st a0 a1 a2 a3).2
  | NetCall.setValid v => (Network_SetValid st v).2
  | NetCall.getValid => (Network_GetValid st).2
  | NetCall.getAddress => (Network_GetAddress st).2.2
  | NetCall.getMask => (Network_GetMask st).2.2
  | NetCall.getGateway => (Network_GetGateway st).2.2

/-- The state after a sequence of configuration calls, made in order. -/
def netRun (st : NetworkState) (calls : List NetCall) : NetworkState :=
  calls.foldl netStep st

/-- The wrapping 32-bit sum `address + mask + gateway` of the stored words. -/
def storedSum (e : Eeprom) : Nat :=
  (Eeprom_Read e EepromKey.EEPROM_SYSTEM_NET_ADDRESS
    + Eeprom_Read e EepromKey.EEPROM_SYSTEM_NET_MASK
    + Eeprom_Read e EepromKey.EEPROM_SYSTEM_NET_GATEWAY) % 4294967296

/-- Whether the stored checksum equals the wrapping sum of the stored address, mask and
gateway. -/
def checksumMatches (e : Eeprom) : Bool :=
  decide (Eeprom_Read e EepromKey.EEPROM_SYSTEM_NET_CHECK = storedSum e)

/-- The four octets of a stored word, as the getters extract them. -/
def storedOctets (address : Nat) : Octets :=
  ⟨IP_ADDRESS_A address, IP_ADDRESS_B address, IP_ADDRESS_C address, IP_ADDRESS_D address⟩

/-- A power cycle: the statics start again from zero (`Network_Active = 0` and
`Network_Valid = NET_UNCHECKED`, the first enumerator, which `Network_Init` line 850 assigns
as well), the EEPROM keeps its words. -/
def powerCycle (st : NetworkState) : NetworkState :=
  { st with Network_Active := 0, Network_Valid := NetValid.NET_UNCHECKED }

/-- The three persisted address settings. -/
inductive NetField where
  | address
  | mask
  | gateway
deriving DecidableEq, Repr

/-- The EEPROM key of an address setting. -/
def NetField.key : NetField → EepromKey
  | NetField.address => EepromKey.EEPROM_SYSTEM_NET_ADDRESS
  | NetField.mask => EepromKey.EEPROM_SYSTEM_NET_MASK
  | NetField.gateway => EepromKey.EEPROM_SYSTEM_NET_GATEWAY

/-- The setter of an address setting: `Network_SetAddress`, `Network_SetMask` or
`Network_SetGateway`. -/
def Network_Set (f : NetField) (st : NetworkState) (a0 a1 a2 a3 : Int) : Int × NetworkState :=
  match f with
  | NetField.address => Network_SetAddress st a0 a1 a2 a3
  | NetField.mask => Network_SetMask st a0 a1 a2 a3
  | NetField.gateway => Network_SetGateway st a0 a1 a2 a3

/-! ## Network bring-up and the OSC properties of the network subsystem (`network.c`) -/

/-- The MAC address globals `emacETHADDR0` .. `emacETHADDR5` (lines 44-49), one byte each. -/
structure Emac where
  emacETHADDR0 : Nat
  emacETHADDR1 : Nat
  emacETHADDR2 : Nat
  emacETHADDR3 : Nat
  emacETHADDR4 : Nat
  emacETHADDR5 : Nat
deriving DecidableEq, Repr

/-- The initial values of the MAC address globals: AC:DE:48:55:00:00. -/
def emacInitial : Emac := ⟨172, 222, 72, 85, 0, 0⟩

/-- The board as `Network_Init` and the OSC handlers see it: the configuration state, the MAC
address, the serial number that `System_GetSerialNumber()` reports, the three words last
handed to lwIP's `netif_add`, and a ghost count of the runs of `Network_Init`. -/
structure Board where
  net : NetworkState
  mac : Emac
  serialNumber : Int
  netif : Option (Nat × Nat × Nat)
  initCount : Nat
deriving DecidableEq, Repr

/-- Source function `Network_Init` (lines 825-877): the MAC bytes 5, 4 and 3 are derived from
the serial number, the validity flag is reset to `NET_UNCHECKED`, the three getters are called
and their results are packed and handed to `netif_add`.  The calls that only start the
I/O lines and lwIP are not modelled. -/
def Network_Init (b : Board) : Int × Board :=
  let serialNumber := b.serialNumber
  let mac := { b.mac with
    emacETHADDR5 := (serialNumber % 256).toNat
    emacETHADDR4 := (serialNumber / 256 % 256).toNat
    emacETHADDR3 := 80 + (serialNumber / 4096 % 16).toNat }
  let st0 := { b.net with Network_Valid := NetValid.NET_UNCHECKED }
  let ra := Network_GetAddress st0
  let address := IP_ADDRESS ra.2.1.a0 ra.2.1.a1 ra.2.1.a2 ra.2.1.a3
  let rm := Network_GetMask ra.2.2
  let mask := IP_ADDRESS rm.2.1.a0 rm.2.1.a1 rm.2.1.a2 rm.2.1.a3
  let rg := Network_GetGateway rm.2.2
  let gateway := IP_ADDRESS rg.2.1.a0 rg.2.1.a1 rg.2.1.a2 rg.2.1.a3
  (CONTROLLER_OK,
    { b with net := rg.2.2, mac := mac, netif := some (address, mask, gateway)
             initCount := b.initCount + 1 })

/-- Source function `Network_SetActive` (lines 91-102). -/
def Network_SetActive (b : Board) (state : Int) : Int × Board :=
  if state ≠ 0 then
    if b.net.Network_Active = 0 then
      let b1 := (Network_Init b).2
      (CONTROLLER_OK, { b1 with net := { b1.net with Network_Active := state } })
    else (CONTROLLER_OK, b)
  else (CONTROLLER_OK, b)

/-- Source function `Network_GetActive` (lines 108-111). -/
def Network_GetActive (b : Board) : Int := b.net.Network_Active

/-- Source function `Network_SetTcpOutAddress` (lines 173-183). -/
def Network_SetTcpOutAddress (st : NetworkState) (a0 a1 a2 a3 : Int) : Int × NetworkState :=
  let address := IP_ADDRESS a0 a1 a2 a3
  let e := Eeprom_Write st.eeprom EepromKey.EEPROM_TCP_REMOTE_ADDRESS address
  (CONTROLLER_OK, { st with eeprom := e })

/-- Source function `Network_GetTcpOutAddress` (lines 372-398). -/
def Network_GetTcpOutAddress (st : NetworkState) : Int × Octets × NetworkState :=
  let address := Eeprom_Read st.eeprom EepromKey.EEPROM_TCP_REMOTE_ADDRESS
  (CONTROLLER_OK,
    ⟨IP_ADDRESS_A address, IP_ADDRESS_B address, IP_ADDRESS_C address, IP_ADDRESS_D address⟩,
    st)

/-- One typed argument of an incoming OSC message. -/
inductive OscArg where
  | int (v : Int)
  | str (s : String)
deriving DecidableEq, Repr

/-- The payload of an outgoing OSC message, kept as the arguments of the `snprintf` that
formats it: an `int` (type tag `,i`), or a string (type tag `,s`) printed from four ints
with `%d.%d.%d.%d` or from the six MAC bytes with `%02X:%02X:%02X:%02X:%02X:%02X`. -/
inductive OscValue where
  | int (v : Int)
  | dotted (a0 a1 a2 a3 : Int)
  | mac (b0 b1 b2 b3 b4 b5 : Nat)
deriving DecidableEq, Repr

/-- What is sent back on a channel: a typed value under an address, or an error tagged with
the subsystem name and carrying a text. -/
inductive OscReply where
  | message (address : String) (value : OscValue)
  | error (subsystem : String) (text : String)
deriving DecidableEq, Repr

/-- The parts of the OSC layer and of the C library that `network.c` uses and that lie
outside the source tree: the error code of `error.h`, the value that `Osc_SubsystemError`
returns, and `sscanf( address, "%d.%d.%d.%d", a0, a1, a2, a3 )` as the number of conversions
it reports together with the four ints afterwards. -/
structure OscEnv where
  CONTROLLER_ERROR_NO_ADDRESS : Int
  subsystemErrorStatus : Int
  sscanf4 : String → Int × Octets

/-- The board together with the replies sent so far, oldest first, each with its channel. -/
structure OscState where
  board : Board
  out : List (Int × OscReply)
deriving DecidableEq, Repr

/-- The name `NetworkOsc_Name` (line 982). -/
def NetworkOsc_Name : String := "network"

/-- The table `NetworkOsc_PropertyNames` (lines 983-985), without its trailing 0. -/
def NetworkOsc_PropertyNames : List String :=
  ["active", "address", "mask", "gateway", "valid", "mac", "osc_udp_port",
    "osc_tcpout_address", "osc_tcpout_port", "tcpout_connect", "tcpout_autoconnect"]

/-- Modelled from the spec: `Osc_CreateMessage( channel, address, format, ... )` of the absent
`osc.c`, which sends one typed reply under `address` on the channel. -/
def Osc_CreateMessage (s : OscState) (channel : Int) (address : String) (value : OscValue) :
    OscState :=
  { s with out := s.out ++ [(channel, OscReply.message address value)] }

/-- Modelled from the spec: `Osc_SubsystemError( channel, subsystem, text )` of the absent
`osc.c`, which sends one error reply tagged with the subsystem name and carrying a
human-readable message; its return value is a parameter. -/
def Osc_SubsystemError (env : OscEnv) (s : OscState) (channel : Int) (subsystem text : String) :
    Int × OscState :=
  (env.subsystemErrorStatus,
    { s with out := s.out ++ [(channel, OscReply.error subsystem text)] })

/-- Modelled from the spec: `Osc_ExtractData( typedata, "i", &value )` of the absent `osc.c`:
the number of arguments extracted, 1 with the value when the first argument is an integer,
0 otherwise. -/
def Osc_ExtractData_i (typedata : List OscArg) : Int × Int :=
  match typedata with
  | OscArg.int v :: _ => (1, v)
  | _ => (0, 0)

/-- Modelled from the spec: `Osc_ExtractData( typedata, "s", &address )` of the absent
`osc.c`: the number of arguments extracted, 1 with the string when the first argument is a
string, 0 otherwise. -/
def Osc_ExtractData_s (typedata : List OscArg) : Int × String :=
  match typedata with
  | OscArg.str a :: _ => (1, a)
  | _ => (0, "")

/-- Source function `Network_AddressConvert` (lines 808-811). -/
def Network_AddressConvert (env : OscEnv) (address : String) : Int × Octets :=
  if (env.sscanf4 address).1 = 4 then (CONTROLLER_OK, (env.sscanf4 address).2)
  else (env.CONTROLLER_ERROR_NO_ADDRESS, (env.sscanf4 address).2)

/-- The formatting `snprintf( address, OSC_SCRATCH_SIZE, "/%s/%s", NetworkOsc_Name,
NetworkOsc_PropertyNames[ property ] )` of `NetworkOsc_PropertyGet`. -/
def propertyAddress (property : Nat) : String :=
  "/" ++ NetworkOsc_Name ++ "/" ++ NetworkOsc_PropertyNames.getD property ""

/-- Source function `NetworkOsc_PropertySet` (lines 1018-1113).  The case of property 7 has
no `break`, so control continues into the case of property 8. -/
def NetworkOsc_PropertySet (env : OscEnv) (s : OscState) (property : Int)
    (typedata : List OscArg) (channel : Int) : Int × OscState :=
  if property = 0 then
    let x := Osc_ExtractData_i typedata
    if x.1 ≠ 1 then
      Osc_SubsystemError env s channel NetworkOsc_Name "Incorrect data - need an int"
    else (CONTROLLER_OK, { s with board := (Network_SetActive s.board x.2).2 })
  else if property = 1 then
    let x := Osc_ExtractData_s typedata
    if x.1 ≠ 1 then
      Osc_SubsystemError env s channel NetworkOsc_Name "Incorrect data - need a string"
    else
      let c := Network_AddressConvert env x.2
      if c.1 ≠ CONTROLLER_OK then
        Osc_SubsystemError env s channel NetworkOsc_Name "Incorrect address - need 'a.b.c.d'"
      else
        (CONTROLLER_OK, { s with board := { s.board with
          net := (Network_SetAddress s.board.net c.2.a0 c.2.a1 c.2.a2 c.2.a3).2 } })
  else if property = 2 then
    let x := Osc_ExtractData_s typedata
    if x.1 ≠ 1 then
      Osc_SubsystemError env s channel NetworkOsc_Name "Incorrect data - need a string"
    else
      let c := Network_AddressConvert env x.2
      if c.1 ≠ CONTROLLER_OK then
        Osc_SubsystemError env s channel NetworkOsc_Name "Incorrect mask - need 'a.b.c.d'"
      else
        (CONTROLLER_OK, { s with board := { s.board with
          net := (Network_SetMask s.board.net c.2.a0 c.2.a1 c.2.a2 c.2.a3).2 } })
  else if property = 3 then
    let x := Osc_ExtractData_s typedata
    if x.1 ≠ 1 then
      Osc_SubsystemError env s channel NetworkOsc_Name "Incorrect data - need a string"
    else
      let c := Network_AddressConvert env x.2
      if c.1 ≠ CONTROLLER_OK then
        Osc_SubsystemError env s channel NetworkOsc_Name "Incorrect gateway - need 'a.b.c.d'"
      else
        (CONTROLLER_OK, { s with board := { s.board with
          net := (Network_SetGateway s.board.net c.2.a0 c.2.a1 c.2.a2 c.2.a3).2 } })
  else if property = 4 then
    let x := Osc_ExtractData_i typedata
    if x.1 ≠ 1 then
      Osc_SubsystemError env s channel NetworkOsc_Name "Incorrect data - need an int"
    else
      (CONTROLLER_OK, { s with board := { s.board with
        net := (Network_SetValid s.board.net x.2).2 } })
  else if property = 5 then
    Osc_SubsystemError env s channel NetworkOsc_Name "MAC is read only."
  else if property = 6 then
    Osc_SubsystemError env s channel NetworkOsc_Name "UDP port over OSC not implemented."
  else if property = 7 then
    let x := Osc_ExtractData_s typedata
    if x.1 ≠ 1 then
      Osc_SubsystemError env s channel NetworkOsc_Name "Incorrect data - need a string"
    else
      let c := Network_AddressConvert env x.2
      if c.1 ≠ CONTROLLER_OK then
        Osc_SubsystemError env s channel NetworkOsc_Name
          "Incorrect TCP address - need 'xxx.xxx.xxx.xxx'"
      else
        let s1 := { s with board := { s.board with
          net := (Network_SetTcpOutAddress s.board.net c.2.a0 c.2.a1 c.2.a2 c.2.a3).2 } }
        -- no break: case 8 follows
        Osc_SubsystemError env s1 channel NetworkOsc_Name "TCP port over OSC not implemented."
  else if property = 8 then
    Osc_SubsystemError env s channel NetworkOsc_Name "TCP port over OSC not implemented."
  else (CONTROLLER_OK, s)

/-- Source function `NetworkOsc_PropertyGet` (lines 1116-1174). -/
def NetworkOsc_PropertyGet (s : OscState) (property : Int) (channel : Int) : Int × OscState :=
  let result := CONTROLLER_OK
  if property = 0 then
    let value := Network_GetActive s.board
    (result, Osc_CreateMessage s channel (propertyAddress 0) (OscValue.int value))
  else if property = 1 then
    let r := Network_GetAddress s.board.net
    let s1 := { s with board := { s.board with net := r.2.2 } }
    (result, Osc_CreateMessage s1 channel (propertyAddress 1)
      (OscValue.dotted r.2.1.a0 r.2.1.a1 r.2.1.a2 r.2.1.a3))
  else if property = 2 then
    let r := Network_GetMask s.board.net
    let s1 := { s with board := { s.board with net := r.2.2 } }
    (result, Osc_CreateMessage s1 channel (propertyAddress 2)
      (OscValue.dotted r.2.1.a0 r.2.1.a1 r.2.1.a2 r.2.1.a3))
  else if property = 3 then
    let r := Network_GetGateway s.board.net
    let s1 := { s with board := { s.board with net := r.2.2 } }
    (result, Osc_CreateMessage s1 channel (propertyAddress 3)
      (OscValue.dotted r.2.1.a0 r.2.1.a1 r.2.1.a2 r.2.1.a3))
  else if property = 4 then
    let r := Network_GetValid s.board.net
    let s1 := { s with board := { s.board with net := r.2 } }
    (result, Osc_CreateMessage s1 channel (propertyAddress 4) (OscValue.int r.1))
  else if property = 5 then
    (result, Osc_CreateMessage s channel (propertyAddress 5)
      (OscValue.mac s.board.mac.emacETHADDR0 s.board.mac.emacETHADDR1
        s.board.mac.emacETHADDR2 s.board.mac.emacETHADDR3 s.board.mac.emacETHADDR4
        s.board.mac.emacETHADDR5))
  else if property = 6 then (result, s)
  else if property = 7 then
    let r := Network_GetTcpOutAddress s.board.net
    (result, Osc_CreateMessage s channel (propertyAddress 7)
      (OscValue.dotted r.2.1.a0 r.2.1.a1 r.2.1.a2 r.2.1.a3))
  else (result, s)

/-- A board after reset, before any network call: nothing validated or activated, MAC bytes
at their initial values, the given serial number and EEPROM contents. -/
def bootBoard (serialNumber : Int) (e : Eeprom) : Board :=
  ⟨⟨0, NetValid.NET_UNCHECKED, e⟩, emacInitial, serialNumber, none, 0⟩

/-- A stand-in for the C library in concrete runs: `sscanf` converts the one string
`192.168.0.10` to its four numbers and reports no conversion for any other string. -/
def envOneAddress : OscEnv :=
  ⟨-1, 0, fun a => if a = "192.168.0.10" then (4, ⟨192, 168, 0, 10⟩) else (0, ⟨0, 0, 0, 0⟩)⟩

/-! ## Proof devices for the decoder -/

/-- Where the decoder stands after some bytes of the stream: the data still to come, the
buffer it has filled so far, and the fact that the rest of the run is the run from there. -/
structure Consumed (cfg : UsbConfig) (L : Int) (q : List RxOutcome) (w : UsbWorld)
    (s : UsbSerial) (rest : List (List Nat)) (buffer : List Nat) (received : Nat)
    (steps : Nat) (out : List Nat) (tail : List Nat) : Prop where
  run : ∃ w' s' cur' rest' buffer', Feeding w' s' cur' rest' q ∧ ChunksOk cfg cur' rest' ∧
    cur' ++ rest'.flatten = tail ∧ rest'.length ≤ rest.length ∧
    (∀ n, usbserialReadSlipLoop cfg L (steps + n) w s buffer received
      = usbserialReadSlipLoop cfg L n w' s' buffer' (received + out.length)) ∧
    buffer'.take (received + out.length) = buffer.take received ++ out ∧
    buffer'.length = buffer.length ∧
    (∀ i, received + out.length ≤ i → buffer'[i]? = buffer[i]?)

/-! ## Sockets over lwIP (`network.c`) -/

/-- The lwIP value `ERR_OK`, the `err_t` of a call that succeeded. -/
def ERR_OK : Int := 0

/-- The lwIP function `ntohl` on the little-endian ARM7 of the board: the four bytes of a
32-bit word in reverse order. -/
def ntohl (x : Nat) : Nat :=
  x % 256 * 16777216 + x / 256 % 256 * 65536 + x / 65536 % 256 * 256 + x / 16777216 % 256

/-- The lwIP function `htonl` on the little-endian ARM7 of the board: the same reversal. -/
def htonl (x : Nat) : Nat := ntohl x

/-- The connections of lwIP as `network.c` drives them.  A handle is a number, `NULL` is
`none`.  `live` holds the connections made by `netconn_new` and not yet given to
`netconn_delete`; `connectResults` holds the `err_t` values of the `netconn_connect` calls to
come; `misapplied` is a ghost log of the handles that a call of the stack was applied to
although the handle was `NULL` or no longer live. -/
structure NetStack where
  nextId : Nat
  live : List Nat
  connectResults : List Int
  misapplied : List (Option Nat)
deriving DecidableEq, Repr

/-- The lwIP call `netconn_new( type )`: a fresh live connection. -/
def netconn_new (n : NetStack) : Option Nat × NetStack :=
  (some n.nextId, { n with nextId := n.nextId + 1, live := n.nextId :: n.live })

/-- The check that every lwIP call makes of its connection argument in this model: a handle
that is `NULL` or not live is recorded in the ghost log. -/
def netconn_use (n : NetStack) (conn : Option Nat) : NetStack :=
  match conn with
  | some id => if id ∈ n.live then n else { n with misapplied := n.misapplied ++ [conn] }
  | none => { n with misapplied := n.misapplied ++ [conn] }

/-- The lwIP call `netconn_connect( conn, addr, port )`: the next value of `connectResults`,
and a refusal (`-1`) when none is left. -/
def netconn_connect (n : NetStack) (conn : Option Nat) (_addr : Nat) (_port : Int) :
    Int × NetStack :=
  let n1 := netconn_use n conn
  match n1.connectResults with
  | [] => (-1, n1)
  | r :: rs => (r, { n1 with connectResults := rs })

/-- The lwIP call `netconn_listen( conn )`. -/
def netconn_listen (n : NetStack) (conn : Option Nat) : NetStack := netconn_use n conn

/-- The lwIP call `netconn_bind( conn, addr, port )`. -/
def netconn_bind (n : NetStack) (conn : Option Nat) (_port : Int) : NetStack :=
  netconn_use n conn

/-- The lwIP call `netconn_close( conn )`. -/
def netconn_close (n : NetStack) (conn : Option Nat) : NetStack := netconn_use n conn

/-- The lwIP call `netconn_delete( conn )`: the connection is live no longer. -/
def netconn_delete (n : NetStack) (conn : Option Nat) : NetStack :=
  let n1 := netconn_use n conn
  match conn with
  | some id => { n1 with live := n1.live.filter (fun x => x ≠ id) }
  | none => n1

/-- Source function `Socket` (lines 487-506).  The store `conn->readingbuf = NULL` is the
initial value of the `Netconn` record that `SocketRead` works on. -/
def Socket (b : Board) (n : NetStack) (address : Nat) (port : Int) :
    Option Nat × Board × NetStack :=
  let b1 := (Network_SetActive b 1).2
  let c := netconn_new n
  let remote_addr := htonl address
  let r := netconn_connect c.2 c.1 remote_addr port
  if ERR_OK ≠ r.1 then (none, b1, r.2) else (c.1, b1, r.2)

/-- Source function `SocketClose` (lines 629-634). -/
def SocketClose (n : NetStack) (socket : Option Nat) : NetStack :=
  netconn_delete (netconn_close n socket) socket

/-- Source function `ServerSocket` (lines 642-653). -/
def ServerSocket (b : Board) (n : NetStack) (port : Int) : Option Nat × Board × NetStack :=
  let b1 := (Network_SetActive b 1).2
  let c := netconn_new n
  let n1 := netconn_listen c.2 c.1
  let n2 := netconn_bind n1 c.1 port
  (c.1, b1, n2)

/-- Source function `ServerSocketClose` (lines 680-685). -/
def ServerSocketClose (n : NetStack) (serverSocket : Option Nat) : Int × NetStack :=
  (0, netconn_delete (netconn_close n serverSocket) serverSocket)

/-- Source function `DatagramSocket` (lines 693-708). -/
def DatagramSocket (b : Board) (n : NetStack) (port : Int) : Option Nat × Board × NetStack :=
  let b1 := (Network_SetActive b 1).2
  let c := netconn_new n
  let n1 := netconn_bind c.2 c.1 port
  (c.1, b1, n1)

/-- Source function `DatagramSocketClose` (lines 799-803). -/
def DatagramSocketClose (n : NetStack) (socket : Option Nat) : NetStack :=
  netconn_delete (netconn_close n socket) socket

/-- A received UDP packet as lwIP hands it over in a `netbuf`: the bytes, the sender's address
as the word `addr->addr` in network byte order, and the sender's port. -/
structure Datagram where
  payload : List Nat
  fromaddr : Nat
  fromport : Int
deriving DecidableEq, Repr

/-- A UDP connection as seen from `DatagramSocketReceive`: the port it was last bound to and
what the `netconn_recv` calls still to come return, `none` for `NULL`. -/
structure UdpWorld where
  bound : Option Int
  recvq : List (Option Datagram)
deriving DecidableEq, Repr

/-- The values and the effects of one call of `DatagramSocketReceive`. -/
structure DatagramReceiveResult where
  rv : Int
  address : Nat
  port : Int
  data : List Nat
  world : UdpWorld
deriving DecidableEq, Repr

/-- Source function `DatagramSocketReceive` (lines 764-792).  The function reads the buffer
that `netconn_recv` returns without a test for `NULL`; a call that gets no packet has no
result (`none`). -/
def DatagramSocketReceive (w : UdpWorld) (incomingPort : Int) (data : List Nat)
    (length : Int) : Option DatagramReceiveResult :=
  let w1 : UdpWorld := { w with bound := some incomingPort }
  match w1.recvq with
  | some buf :: q =>
    let buflen := netbuf_len buf.payload
    let data1 := netbuf_copy buf.payload data length
    let port := buf.fromport
    let address := ntohl buf.fromaddr
    if length > buflen then some ⟨buflen, address, port, data1, { w1 with recvq := q }⟩
    else some ⟨length, address, port, data1, { w1 with recvq := q }⟩
  | _ => none

/-! ## Sequences of calls that open sockets or activate the network -/

/-- A call of one of the functions of `network.c` that call `Network_SetActive`, or of
`Network_SetActive` itself, with its arguments. -/
inductive OpenCall where
  | socket (address : Nat) (port : Int)
  | serverSocket (port : Int)
  | datagramSocket (port : Int)
  | setActive (state : Int)
deriving DecidableEq, Repr

/-- The call requests activation: every call that opens a socket does (it runs
`Network_SetActive( 1 )`), and `Network_SetActive( state )` does for a non-zero `state`. -/
def OpenCall.requestsActivation : OpenCall → Bool
  | OpenCall.setActive state => decide (state ≠ 0)
  | _ => true

/-- The board and the stack after one call. -/
def openStep (s : Board × NetStack) : OpenCall → Board × NetStack
  | OpenCall.socket address port => (Socket s.1 s.2 address port).2
  | OpenCall.serverSocket port => (ServerSocket s.1 s.2 port).2
  | OpenCall.datagramSocket port => (DatagramSocket s.1 s.2 port).2
  | OpenCall.setActive state => ((Network_SetActive s.1 state).2, s.2)

/-- The board and the stack after a sequence of calls, made in order. -/
def openRun (s : Board × NetStack) (calls : List OpenCall) : Board × NetStack :=
  calls.foldl openStep s

/-- A stack with no connection yet, whose `netconn_connect` calls will report the given
values. -/
def freshStack (connectResults : List Int) : NetStack := ⟨1, [], connectResults, []⟩

/-! ## Theorems -/

/-! ### Network configuration store -/

/-- The octet extractors undo the `IP_ADDRESS` packing on octets 0..255. -/
theorem octets_of_IP_ADDRESS (a0 a1 a2 a3 : Int)
    (h0 : 0 ≤ a0 ∧ a0 ≤ 255) (h1 : 0 ≤ a1 ∧ a1 ≤ 255)
    (h2 : 0 ≤ a2 ∧ a2 ≤ 255) (h3 : 0 ≤ a3 ∧ a3 ≤ 255) :
    IP_ADDRESS_A (IP_ADDRESS a0 a1 a2 a3 % 4294967296) = a0 ∧
    IP_ADDRESS_B (IP_ADDRESS a0 a1 a2 a3 % 4294967296) = a1 ∧
    IP_ADDRESS_C (IP_ADDRESS a0 a1 a2 a3 % 4294967296) = a2 ∧
    IP_ADDRESS_D (IP_ADDRESS a0 a1 a2 a3 % 4294967296) = a3 := by
  unfold IP_ADDRESS_A IP_ADDRESS_B IP_ADDRESS_C IP_ADDRESS_D IP_ADDRESS
  refine ⟨?_, ?_, ?_, ?_⟩ <;> omega

/-- C7 (config validity round-trip): for octets `a0..a3` in 0..255 and any prior state, after
`Network_SetAddress(a0,a1,a2,a3)` followed by `Network_SetValid(1)`, `Network_GetAddress`
yields exactly `(a0,a1,a2,a3)` and `Network_GetValid()` returns 1; the same holds for
`Network_SetMask`/`Network_GetMask` and `Network_SetGateway`/`Network_GetGateway`. -/
theorem config_validity_roundTrip (st : NetworkState) (a0 a1 a2 a3 : Int)
    (h0 : 0 ≤ a0 ∧ a0 ≤ 255) (h1 : 0 ≤ a1 ∧ a1 ≤ 255)
    (h2 : 0 ≤ a2 ∧ a2 ≤ 255) (h3 : 0 ≤ a3 ∧ a3 ≤ 255) :
    ((Network_GetAddress (Network_SetValid (Network_SetAddress st a0 a1 a2 a3).2 1).2).2.1
        = ⟨a0, a1, a2, a3⟩ ∧
      (Network_GetValid (Network_SetValid (Network_SetAddress st a0 a1 a2 a3).2 1).2).1 = 1) ∧
    ((Network_GetMask (Network_SetValid (Network_SetMask st a0 a1 a2 a3).2 1).2).2.1
        = ⟨a0, a1, a2, a3⟩ ∧
      (Network_GetValid (Network_SetValid (Network_SetMask st a0 a1 a2 a3).2 1).2).1 = 1) ∧
    ((Network_GetGateway (Network_SetValid (Network_SetGateway st a0 a1 a2 a3).2 1).2).2.1
        = ⟨a0, a1, a2, a3⟩ ∧
      (Network_GetValid (Network_SetValid (Network_SetGateway st a0 a1 a2 a3).2 1).2).1 = 1) := by
  obtain ⟨hA, hB, hC, hD⟩ := octets_of_IP_ADDRESS a0 a1 a2 a3 h0 h1 h2 h3
  simp [Network_GetAddress, Network_GetMask, Network_GetGateway, Network_GetValid,
    Network_SetValid, Network_SetAddress, Network_SetMask, Network_SetGateway,
    checkIfUnchecked, Eeprom_Read, Eeprom_Write, hA, hB, hC, hD]

/-- C7 at a concrete input: on a board whose EEPROM holds other values and whose flag is
still unchecked, setting 10.0.0.5 and validating makes every getter return 10.0.0.5 and
`Network_GetValid()` return 1. -/
theorem config_validity_roundTrip_witness :
    ((0 : Int) ≤ 10 ∧ (10 : Int) ≤ 255) ∧ ((0 : Int) ≤ 5 ∧ (5 : Int) ≤ 255) ∧
    (Network_GetAddress (Network_SetValid (Network_SetAddress
        ⟨0, NetValid.NET_UNCHECKED, ⟨1, 2, 3, 4, 5⟩⟩ 10 0 0 5).2 1).2).2.1 = ⟨10, 0, 0, 5⟩ ∧
    (Network_GetValid (Network_SetValid (Network_SetAddress
        ⟨0, NetValid.NET_UNCHECKED, ⟨1, 2, 3, 4, 5⟩⟩ 10 0 0 5).2 1).2).1 = 1 :=
  ⟨by decide, by decide,
    (config_validity_roundTrip ⟨0, NetValid.NET_UNCHECKED, ⟨1, 2, 3, 4, 5⟩⟩ 10 0 0 5
      (by decide) (by decide) (by decide) (by decide)).1⟩

/-- C8 (a bare mutation invalidates): from any state, after `Network_SetAddress`,
`Network_SetMask` or `Network_SetGateway` with no subsequent `Network_SetValid`, the validity
flag is `NET_INVALID` and the next `Network_GetAddress`, `Network_GetMask` and
`Network_GetGateway` return the factory defaults 192.168.0.200, 255.255.255.0 and
192.168.0.1, whatever was written. -/
theorem bare_mutation_invalidates (st : NetworkState) (a0 a1 a2 a3 : Int) :
    servesFactoryDefaults (Network_SetAddress st a0 a1 a2 a3).2 ∧
    servesFactoryDefaults (Network_SetMask st a0 a1 a2 a3).2 ∧
    servesFactoryDefaults (Network_SetGateway st a0 a1 a2 a3).2 := by
  simp [servesFactoryDefaults, Network_GetAddress, Network_GetMask, Network_GetGateway,
    Network_SetAddress, Network_SetMask, Network_SetGateway, checkIfUnchecked]

/-- C9 (the code at the failing input): after `Network_SetAddress(10,0,0,5)`,
`Network_SetValid(1)` and then `Network_SetValid(0)`, the stored checksum is zero but the flag
is still `NET_VALID`, and `Network_GetAddress` returns 10.0.0.5 and not the factory default
192.168.0.200. -/
theorem setValid_zero_keeps_validated_settings :
    (Network_SetValid (Network_SetValid (Network_SetAddress
        ⟨0, NetValid.NET_UNCHECKED, ⟨0, 0, 0, 0, 0⟩⟩ 10 0 0 5).2 1).2 0).2.eeprom.netCheck = 0 ∧
    (Network_SetValid (Network_SetValid (Network_SetAddress
        ⟨0, NetValid.NET_UNCHECKED, ⟨0, 0, 0, 0, 0⟩⟩ 10 0 0 5).2 1).2 0).2.Network_Valid
      = NetValid.NET_VALID ∧
    (Network_GetAddress (Network_SetValid (Network_SetValid (Network_SetAddress
        ⟨0, NetValid.NET_UNCHECKED, ⟨0, 0, 0, 0, 0⟩⟩ 10 0 0 5).2 1).2 0).2).2.1
      = ⟨10, 0, 0, 5⟩ := by
  decide

/-- C10 (the code at the failing input): with address 1.0.0.0, mask 255.255.255.255 and
gateway 0.0.0.0 persisted, the wrapping 32-bit sum `address + mask + gateway` is zero, so after
`Network_SetValid(0)` the stored checksum of zero matches it and `Network_GetValid()`
returns 1. -/
theorem setValid_zero_matches_zero_sum :
    (Network_GetValid (Network_SetValid (Network_SetGateway (Network_SetMask
        (Network_SetAddress ⟨0, NetValid.NET_UNCHECKED, ⟨7, 7, 7, 7, 7⟩⟩ 1 0 0 0).2
        255 255 255 255).2 0 0 0 0).2 0).2).1 = 1 := by
  decide

/-! ### TCP stream reads -/

/-- After `k + 1` reads that did not exhaust the received buffer, the buffer is retained with
offset `(k + 1) * L` and `netconn_recv` was called once. -/
theorem socketReads_retained (buf : List Nat) (q : List (Option (List Nat))) (off0 : Int)
    (data : List Nat) (L : Nat) (k : Nat) (hk : (k + 1) * L < buf.length) :
    socketReads data L (k + 1) ⟨some buf :: q⟩ ⟨none, off0⟩
      = (⟨q⟩, ⟨some buf, (((k + 1) * L : Nat) : Int)⟩) := by
  induction k with
  | zero =>
    have h : ¬ ((buf.length : Int) ≤ (L : Int)) := by omega
    simp [socketReads, SocketRead, netbuf_len, h]
  | succ j ih =>
    have hj : (j + 1) * L < buf.length := by nlinarith
    have h : ¬ ((buf.length : Int) - (((j + 1) * L : Nat) : Int) ≤ (L : Int)) := by
      have : (j + 1 + 1) * L = (j + 1) * L + L := by ring
      omega
    rw [socketReads, ih hj]
    simp only [SocketRead, netbuf_len, h, if_false]
    have : (j + 1 + 1) * L = (j + 1) * L + L := by ring
    simp [this]

/-- C5 (stream carry-over): when one `netconn_recv` produced a buffer `buf` of `n` bytes and
`SocketRead` is called repeatedly with length `L`, the call number `k + 1` (for `k * L < n`)
returns `min(L, n - k*L)`, the bytes it delivers are bytes `k*L .. min((k+1)*L, n) - 1` of
`buf`, the queue of further receives is untouched (`netconn_recv` was called exactly once),
and the buffer is retained exactly while bytes of it remain unserved. -/
theorem SocketRead_carry_over (buf : List Nat) (q : List (Option (List Nat))) (off0 : Int)
    (data : List Nat) (L : Nat) (k : Nat) (hk : k * L < buf.length) :
    (SocketRead (socketReads data L k ⟨some buf :: q⟩ ⟨none, off0⟩).1
        (socketReads data L k ⟨some buf :: q⟩ ⟨none, off0⟩).2 data L).rv
      = ((min L (buf.length - k * L) : Nat) : Int) ∧
    (SocketRead (socketReads data L k ⟨some buf :: q⟩ ⟨none, off0⟩).1
        (socketReads data L k ⟨some buf :: q⟩ ⟨none, off0⟩).2 data L).data.take
        (min L (buf.length - k * L))
      = (buf.drop (k * L)).take L ∧
    (SocketRead (socketReads data L k ⟨some buf :: q⟩ ⟨none, off0⟩).1
        (socketReads data L k ⟨some buf :: q⟩ ⟨none, off0⟩).2 data L).world.recvq = q ∧
    (SocketRead (socketReads data L k ⟨some buf :: q⟩ ⟨none, off0⟩).1
        (socketReads data L k ⟨some buf :: q⟩ ⟨none, off0⟩).2 data L).conn.readingbuf
      = if (k + 1) * L < buf.length then some buf else none := by
  have hlen : ((buf.drop (k * L)).take L).length = min L (buf.length - k * L) := by
    simp
  have hsucc : (k + 1) * L = k * L + L := by ring
  cases k with
  | zero =>
    simp only [Nat.zero_mul, Nat.sub_zero, List.drop_zero, Nat.zero_add] at hlen hsucc ⊢
    by_cases h : (buf.length : Int) ≤ (L : Int)
    · have h' : ¬ (1 * L < buf.length) := by omega
      simp only [socketReads, SocketRead, netbuf_len, netbuf_copy, netbuf_copy_partial, h,
        if_true, Int.toNat_zero, Int.toNat_ofNat, List.drop_zero, h', if_false]
      refine ⟨by omega, ?_, trivial, trivial⟩
      rw [← hlen, List.take_left']
      rfl
    · have h' : 1 * L < buf.length := by omega
      simp only [socketReads, SocketRead, netbuf_len, netbuf_copy, netbuf_copy_partial, h,
        if_false, Int.toNat_zero, Int.toNat_ofNat, List.drop_zero, h', if_true]
      refine ⟨by omega, ?_, trivial, trivial⟩
      rw [← hlen, List.take_left']
      rfl
  | succ j =>
    rw [socketReads_retained buf q off0 data L j hk, hsucc]
    generalize (j + 1) * L = m at hk hlen ⊢
    by_cases h : (buf.length : Int) - (m : Int) ≤ (L : Int)
    · have h' : ¬ (m + L < buf.length) := by omega
      simp only [SocketRead, netbuf_len, netbuf_copy_partial, h, if_true, Int.toNat_ofNat, h',
        if_false]
      refine ⟨by omega, ?_, trivial, trivial⟩
      rw [← hlen, List.take_left']
      rfl
    · have h' : m + L < buf.length := by omega
      simp only [SocketRead, netbuf_len, netbuf_copy_partial, h, if_false, Int.toNat_ofNat, h',
        if_true]
      refine ⟨by omega, ?_, trivial, trivial⟩
      rw [← hlen, List.take_left']
      rfl

/-- C5 at the input of the specification: a receive of 100 bytes read with a 30-byte buffer;
after three reads the fourth returns the final 10 bytes, bytes 90..99, and drops the buffer. -/
theorem SocketRead_carry_over_witness :
    3 * 30 < (List.range 100).length ∧
    (SocketRead (socketReads (List.replicate 30 0) 30 3 ⟨[some (List.range 100)]⟩ ⟨none, 0⟩).1
        (socketReads (List.replicate 30 0) 30 3 ⟨[some (List.range 100)]⟩ ⟨none, 0⟩).2
        (List.replicate 30 0) 30).rv = 10 ∧
    (SocketRead (socketReads (List.replicate 30 0) 30 3 ⟨[some (List.range 100)]⟩ ⟨none, 0⟩).1
        (socketReads (List.replicate 30 0) 30 3 ⟨[some (List.range 100)]⟩ ⟨none, 0⟩).2
        (List.replicate 30 0) 30).data.take 10 = [90, 91, 92, 93, 94, 95, 96, 97, 98, 99] :=
  ⟨by decide,
    (SocketRead_carry_over (List.range 100) [] 0 (List.replicate 30 0) 30 3 (by decide)).1,
    (SocketRead_carry_over (List.range 100) [] 0 (List.replicate 30 0) 30 3 (by decide)).2.1⟩

/-! ### SLIP encoder -/

/-- Storing at position `p` and taking `p + 1` cells appends the stored byte. -/
theorem take_succ_set (l : List Nat) (p c : Nat) (h : p < l.length) :
    (l.set p c).take (p + 1) = l.take p ++ [c] := by
  induction l generalizing p with
  | nil => simp at h
  | cons x xs ih =>
    cases p with
    | zero => simp
    | succ n =>
      simp only [List.length_cons, Nat.add_lt_add_iff_right] at h
      simp [ih n h]

/-- Every call of `usbserialWrite` logs exactly the bytes it was handed. -/
theorem usbserialWrite_wlog (w : UsbWorld) (s : UsbSerial) (buffer : List Nat) (n : Nat) :
    (usbserialWrite w s buffer n).world.wlog = w.wlog ++ [buffer.take n] := by
  unfold usbserialWrite usbserialOnTx
  dsimp only
  repeat' split
  all_goals rfl

/-- A call of `usbserialWrite` leaves `slipOutBuf` as it is. -/
theorem usbserialWrite_slipOutBuf (w : UsbWorld) (s : UsbSerial) (buffer : List Nat) (n : Nat) :
    (usbserialWrite w s buffer n).serial.slipOutBuf = s.slipOutBuf := by
  unfold usbserialWrite usbserialOnTx
  dsimp only
  repeat' split
  all_goals rfl

/-- Two stretches of the encoder compose. -/
theorem Emitted.trans {cfg : UsbConfig} {a b c : SlipOut} {o1 o2 : List Nat}
    (h1 : Emitted cfg a b o1) (h2 : Emitted cfg b c o2) : Emitted cfg a c (o1 ++ o2) := by
  obtain ⟨ws1, e1, b1, j1⟩ := h1.log
  obtain ⟨ws2, e2, b2, j2⟩ := h2.log
  refine ⟨h2.obp_lt, h2.size, ws1 ++ ws2, ?_, ?_, ?_⟩
  · rw [e2, e1, List.append_assoc]
  · intro x hx
    rcases List.mem_append.mp hx with h | h
    · exact b1 x h
    · exact b2 x h
  · rw [List.flatten_append, List.append_assoc, j2, ← List.append_assoc, j1, List.append_assoc]

/-- One store followed by the flush test emits exactly the stored byte. -/
theorem emit_spec (cfg : UsbConfig) (st : SlipOut) (c : Nat)
    (hM : 2 ≤ cfg.USBSER_MAX_WRITE) (hp : st.obp < cfg.USBSER_MAX_WRITE)
    (hs : st.serial.slipOutBuf.length = cfg.USBSER_MAX_WRITE) :
    ∃ st', emit cfg st c = some st' ∧ Emitted cfg st st' [c] := by
  have hp' : st.obp < st.serial.slipOutBuf.length := by omega
  by_cases hfull : st.obp + 1 ≥ cfg.USBSER_MAX_WRITE
  · refine ⟨_, by simp only [emit, putOut, hp, if_true, Option.map_some',
      usbserialWriteSlipIfFull, hfull]; rfl, ?_, ?_, ?_⟩
    · dsimp only; omega
    · dsimp only
      rw [usbserialWrite_slipOutBuf]
      simp [hs]
    · refine ⟨[(st.serial.slipOutBuf.set st.obp c).take (st.obp + 1)], ?_, ?_, ?_⟩
      · dsimp only
        rw [usbserialWrite_wlog]
      · intro x hx
        simp only [List.mem_singleton] at hx
        subst hx
        simp only [List.length_take, List.length_set]
        omega
      · simp [take_succ_set _ _ _ hp']
  · refine ⟨_, by simp only [emit, putOut, hp, if_true, Option.map_some',
      usbserialWriteSlipIfFull, hfull, if_false]; rfl, ?_, ?_, ?_⟩
    · dsimp only; omega
    · simp [hs]
    · refine ⟨[], by simp, by simp, ?_⟩
      simp [take_succ_set _ _ _ hp']

/-- The encoder loop emits the stuffed payload. -/
theorem usbserialWriteSlipLoop_spec (cfg : UsbConfig) (hM : 2 ≤ cfg.USBSER_MAX_WRITE)
    (b : List Nat) (st : SlipOut) (hp : st.obp < cfg.USBSER_MAX_WRITE)
    (hs : st.serial.slipOutBuf.length = cfg.USBSER_MAX_WRITE) :
    ∃ st', usbserialWriteSlipLoop cfg b st = some st' ∧ Emitted cfg st st' (stuff b) := by
  induction b generalizing st with
  | nil =>
    refine ⟨st, rfl, hp, hs, [], by simp, by simp, by simp [stuff]⟩
  | cons c rest ih =>
    by_cases hE : c = END
    · obtain ⟨st1, e1, m1⟩ := emit_spec cfg st ESC hM hp hs
      obtain ⟨st2, e2, m2⟩ := emit_spec cfg st1 ESC_END hM m1.obp_lt m1.size
      obtain ⟨st3, e3, m3⟩ := ih st2 m2.obp_lt m2.size
      refine ⟨st3, by simp [usbserialWriteSlipLoop, hE, e1, e2, e3], ?_⟩
      have := (m1.trans m2).trans m3
      simpa [stuff, stuffByte, hE] using this
    · by_cases hS : c = ESC
      · obtain ⟨st1, e1, m1⟩ := emit_spec cfg st ESC hM hp hs
        obtain ⟨st2, e2, m2⟩ := emit_spec cfg st1 ESC_ESC hM m1.obp_lt m1.size
        obtain ⟨st3, e3, m3⟩ := ih st2 m2.obp_lt m2.size
        have hne : ESC ≠ END := by decide
        refine ⟨st3, by simp [usbserialWriteSlipLoop, hS, hne, e1, e2, e3], ?_⟩
        have := (m1.trans m2).trans m3
        simpa [stuff, stuffByte, hS, hne] using this
      · obtain ⟨st1, e1, m1⟩ := emit_spec cfg st c hM hp hs
        obtain ⟨st3, e3, m3⟩ := ih st1 m1.obp_lt m1.size
        refine ⟨st3, by simp [usbserialWriteSlipLoop, hE, hS, e1, e3], ?_⟩
        have := m1.trans m3
        simpa [stuff, stuffByte, hE, hS] using this

/-- The encoder returns, and the units it hands to `usbserialWrite` are non-empty, at most
`USBSER_MAX_WRITE` long and concatenate to `END`, the stuffed payload, `END`. -/
theorem usbserialWriteSlip_spec (cfg : UsbConfig) (w : UsbWorld) (s : UsbSerial) (b : List Nat)
    (hM : 2 ≤ cfg.USBSER_MAX_WRITE) (hs : s.slipOutBuf.length = cfg.USBSER_MAX_WRITE) :
    ∃ r ws, usbserialWriteSlip cfg w s b = some r ∧ r.world.wlog = w.wlog ++ ws ∧
      (∀ x ∈ ws, 1 ≤ x.length ∧ x.length ≤ cfg.USBSER_MAX_WRITE) ∧
      ws.flatten = [END] ++ stuff b ++ [END] := by
  have h0 : putOut cfg ⟨w, s, 0, 0⟩ END
      = some ⟨w, { s with slipOutBuf := s.slipOutBuf.set 0 END }, 1, 0⟩ := by
    have : 0 < cfg.USBSER_MAX_WRITE := by omega
    simp [putOut, this]
  obtain ⟨st1, e1, m1⟩ := usbserialWriteSlipLoop_spec cfg hM b
    ⟨w, { s with slipOutBuf := s.slipOutBuf.set 0 END }, 1, 0⟩ (by dsimp only; omega)
    (by simp [hs])
  obtain ⟨ws, ew, bw, jw⟩ := m1.log
  have hp1 := m1.obp_lt
  have hs1 := m1.size
  have h2 : putOut cfg st1 END = some { st1 with
      serial := { st1.serial with slipOutBuf := st1.serial.slipOutBuf.set st1.obp END }
      obp := st1.obp + 1 } := by
    simp [putOut, hp1]
  have hrun : ∃ r, usbserialWriteSlip cfg w s b = some r ∧ r.world.wlog
      = st1.world.wlog ++ [(st1.serial.slipOutBuf.set st1.obp END).take (st1.obp + 1)] := by
    simp only [usbserialWriteSlip, h0, Option.bind_some, Option.some_bind, e1, h2,
      Option.map_some']
    exact ⟨_, rfl, usbserialWrite_wlog _ _ _ _⟩
  obtain ⟨r, hr, hlog⟩ := hrun
  refine ⟨r, ws ++ [(st1.serial.slipOutBuf.set st1.obp END).take (st1.obp + 1)], hr, ?_, ?_, ?_⟩
  · rw [hlog, ew]
    simp
  · intro x hx
    rcases List.mem_append.mp hx with h | h
    · exact bw x h
    · simp only [List.mem_singleton] at h
      subst h
      simp only [List.length_take, List.length_set]
      omega
  · have hp' : st1.obp < st1.serial.slipOutBuf.length := by omega
    have h1 : (s.slipOutBuf.set 0 END).take 1 = [END] := by
      have := take_succ_set s.slipOutBuf 0 END (by omega)
      simpa using this
    dsimp only at jw
    rw [List.flatten_append, take_succ_set _ _ _ hp']
    simp only [List.flatten_cons, List.flatten_nil, List.append_nil]
    rw [← List.append_assoc, jw, h1]

/-- C3 (encode wire format, no byte lost across flushes): for every payload `b`, the
concatenation, in order, of all buffers that `usbserialWriteSlip` hands to `usbserialWrite`
(the flushes made by `usbserialWriteSlipIfFull` followed by the final write) equals
`[END] ++ stuff(b) ++ [END]`.  The array `slipOutBuf` has `USBSER_MAX_WRITE` cells and that
constant is at least 2. -/
theorem usbserialWriteSlip_wire_format (cfg : UsbConfig) (w : UsbWorld) (s : UsbSerial)
    (b : List Nat) (hM : 2 ≤ cfg.USBSER_MAX_WRITE)
    (hs : s.slipOutBuf.length = cfg.USBSER_MAX_WRITE) :
    ∃ r sent, usbserialWriteSlip cfg w s b = some r ∧ r.world.wlog = w.wlog ++ sent ∧
      sent.flatten = [END] ++ stuff b ++ [END] := by
  obtain ⟨r, ws, hr, hlog, _, hflat⟩ := usbserialWriteSlip_spec cfg w s b hM hs
  exact ⟨r, ws, hr, hlog, hflat⟩

/-- C3 at a concrete input: with 4-byte transmit units the payload `1, END, ESC, 2` leaves in
two units whose concatenation is `END, 1, ESC, ESC_END, ESC, ESC_ESC, 2, END`. -/
theorem usbserialWriteSlip_wire_format_witness :
    2 ≤ (UsbConfig.mk 64 4 (-1)).USBSER_MAX_WRITE ∧
    ∃ r sent, usbserialWriteSlip ⟨64, 4, -1⟩ (hostSends []) (freshSerial ⟨64, 4, -1⟩)
        [1, END, ESC, 2] = some r ∧ r.world.wlog = [] ++ sent ∧
      sent.flatten = [END] ++ stuff [1, END, ESC, 2] ++ [END] :=
  ⟨by decide, usbserialWriteSlip_wire_format ⟨64, 4, -1⟩ (hostSends [])
    (freshSerial ⟨64, 4, -1⟩) [1, END, ESC, 2] (by decide) (by decide)⟩

/-- C4 (bounded write units): for every payload `b`, with `USBSER_MAX_WRITE >= 2`,
`usbserialWriteSlip` runs to its end without a store outside `slipOutBuf` (the model returns
`none` on such a store), and every buffer it hands to `usbserialWrite` carries at least 1 and
at most `USBSER_MAX_WRITE` bytes. -/
theorem usbserialWriteSlip_bounded_units (cfg : UsbConfig) (w : UsbWorld) (s : UsbSerial)
    (b : List Nat) (hM : 2 ≤ cfg.USBSER_MAX_WRITE)
    (hs : s.slipOutBuf.length = cfg.USBSER_MAX_WRITE) :
    ∃ r sent, usbserialWriteSlip cfg w s b = some r ∧ r.world.wlog = w.wlog ++ sent ∧
      ∀ x ∈ sent, 1 ≤ x.length ∧ x.length ≤ cfg.USBSER_MAX_WRITE := by
  obtain ⟨r, ws, hr, hlog, hb, _⟩ := usbserialWriteSlip_spec cfg w s b hM hs
  exact ⟨r, ws, hr, hlog, hb⟩

/-- C4 at a concrete input: 64-byte units and a payload of 100 `END` bytes, whose encoding is
202 bytes long. -/
theorem usbserialWriteSlip_bounded_units_witness :
    2 ≤ cfg64.USBSER_MAX_WRITE ∧
    ∃ r sent, usbserialWriteSlip cfg64 (hostSends []) (freshSerial cfg64)
        (List.replicate 100 END) = some r ∧ r.world.wlog = [] ++ sent ∧
      ∀ x ∈ sent, 1 ≤ x.length ∧ x.length ≤ cfg64.USBSER_MAX_WRITE :=
  ⟨by decide, usbserialWriteSlip_bounded_units cfg64 (hostSends []) (freshSerial cfg64)
    (List.replicate 100 END) (by decide) (by decide)⟩

/-! ### SLIP decoder -/

/-- One whole receive unit: with nothing left over in `rxBuf`, a read of `USBSER_MAX_READ`
bytes returns the bytes of the next completed `USBD_Read`. -/
theorem usbserialRead_unit (cfg : UsbConfig) (w : UsbWorld) (s : UsbSerial) (buffer : List Nat)
    (chunk : List Nat) (q : List RxOutcome)
    (hc : w.configured = true) (hcnt : s.rxBufCount = 0)
    (hq : w.rxq = RxOutcome.callback true chunk :: q)
    (hne : chunk ≠ []) (hlen : chunk.length ≤ cfg.USBSER_MAX_READ) :
    (usbserialRead cfg w s buffer (cfg.USBSER_MAX_READ : Int)).rv = (chunk.length : Int) ∧
    (usbserialRead cfg w s buffer (cfg.USBSER_MAX_READ : Int)).buffer
      = chunk ++ buffer.drop chunk.length ∧
    (usbserialRead cfg w s buffer (cfg.USBSER_MAX_READ : Int)).world.configured = true ∧
    (usbserialRead cfg w s buffer (cfg.USBSER_MAX_READ : Int)).world.rxq = q ∧
    (usbserialRead cfg w s buffer (cfg.USBSER_MAX_READ : Int)).serial.rxBufCount = 0 := by
  have hpos : 0 < chunk.length := List.length_pos.mpr hne
  have hM : ¬ ((cfg.USBSER_MAX_READ : Int) = 0) := by omega
  have hmin : min (chunk.length : Int) (cfg.USBSER_MAX_READ : Int) = (chunk.length : Int) := by
    omega
  have htake : chunk.take cfg.USBSER_MAX_READ = chunk := List.take_of_length_le hlen
  simp only [usbserialRead, hc, hcnt, hq, usbserialOnRx, memcpy, htake]
  simp [hM, hmin, hc]


/-- Dropping the first pending byte keeps the units well formed. -/
theorem ChunksOk.tail {cfg : UsbConfig} {x : Nat} {cur : List Nat} {rest : List (List Nat)}
    (h : ChunksOk cfg (x :: cur) rest) : ChunksOk cfg cur rest := by
  refine ⟨?_, h.2⟩
  cases cur with
  | nil => simp
  | cons y ys =>
    have := h.1
    rwa [List.getLast?_cons_cons] at this

/-- A pending `ESC` is followed by a byte of the same unit. -/
theorem ChunksOk.after_ESC {cfg : UsbConfig} {cur : List Nat} {rest : List (List Nat)}
    (h : ChunksOk cfg (ESC :: cur) rest) : cur ≠ [] := by
  intro hnil
  subst hnil
  exact h.1 rfl

/-- While the stream is not exhausted, `slipFetch` leaves its next byte pending. -/
theorem slipFetch_ready (cfg : UsbConfig) (w : UsbWorld) (s : UsbSerial) (cur : List Nat)
    (rest : List (List Nat)) (q : List RxOutcome) (x : Nat) (tl : List Nat)
    (hF : Feeding w s cur rest q) (hC : ChunksOk cfg cur rest)
    (hstream : cur ++ rest.flatten = x :: tl) :
    ∃ cur' rest', cur' ++ rest'.flatten = tl ∧ ChunksOk cfg (x :: cur') rest' ∧
      Feeding (slipFetch cfg w s).1 (slipFetch cfg w s).2 (x :: cur') rest' q := by
  cases cur with
  | cons y cur0 =>
    simp only [List.cons_append, List.cons.injEq] at hstream
    obtain ⟨hy, htl⟩ := hstream
    subst hy
    obtain ⟨pre, post, hbuf, hidx, hcount⟩ := hF.pending (by simp)
    have hlt : ¬ ((s.idx : Int) ≥ s.slipInCount) := by
      rw [hcount, hidx]
      simp only [List.length_cons]
      omega
    have hfetch : slipFetch cfg w s = (w, s) := by
      simp only [slipFetch, hlt, if_false]
    rw [hfetch]
    exact ⟨cur0, rest, htl, hC, hF⟩
  | nil =>
    cases rest with
    | nil => simp at hstream
    | cons chunk rest0 =>
      obtain ⟨hne, hlen, hlast⟩ := hC.2 chunk (by simp)
      cases chunk with
      | nil => exact absurd rfl hne
      | cons y c0 =>
        simp only [List.nil_append, List.flatten_cons, List.cons_append, List.cons.injEq]
          at hstream
        obtain ⟨hy, htl⟩ := hstream
        subst hy
        have hq : w.rxq = RxOutcome.callback true (y :: c0)
            :: (rest0.map (RxOutcome.callback true) ++ q) := by
          rw [hF.rxq]
          rfl
        obtain ⟨h1, h2, h3, h4, h5⟩ := usbserialRead_unit cfg w s s.slipInBuf (y :: c0) _
          hF.conf hF.cnt hq hne hlen
        have hdr := hF.drained rfl
        refine ⟨c0, rest0, htl, ⟨hlast, fun c hc => hC.2 c (List.mem_cons_of_mem _ hc)⟩, ?_⟩
        simp only [slipFetch, hdr, if_true]
        refine ⟨h3, h4, h5, fun h => absurd h (by simp), fun _ => ?_⟩
        refine ⟨[], s.slipInBuf.drop (y :: c0).length, ?_, rfl, ?_⟩
        · simp only [h2, List.nil_append]
        · simp only [h1, List.length_nil, Nat.zero_add]

/-- Reading the pending byte at `idx` and stepping over it. -/
theorem Feeding.advance {w : UsbWorld} {s : UsbSerial} {x : Nat} {cur : List Nat}
    {rest : List (List Nat)} {q : List RxOutcome} (hF : Feeding w s (x :: cur) rest q) :
    s.slipInBuf.getD s.idx 0 = x ∧ Feeding w { s with idx := s.idx + 1 } cur rest q ∧
      (cur ≠ [] → ¬ (((s.idx + 1 : Nat) : Int) ≥ s.slipInCount)) := by
  obtain ⟨pre, post, hbuf, hidx, hcount⟩ := hF.pending (by simp)
  refine ⟨?_, ⟨hF.conf, hF.rxq, hF.cnt, ?_, ?_⟩, ?_⟩
  · rw [hbuf, hidx, List.getD_eq_getElem?_getD, List.append_assoc,
      List.getElem?_append_right (Nat.le_refl _)]
    simp
  · intro hnil
    subst hnil
    simp only [hcount, hidx, List.length_cons, List.length_nil]
    omega
  · intro hne
    refine ⟨pre ++ [x], post, ?_, ?_, ?_⟩
    · simp [hbuf]
    · simp [hidx]
    · simp only [hcount, List.length_append, List.length_cons, List.length_nil]
      omega
  · intro hne
    have : 0 < cur.length := List.length_pos.mpr hne
    simp only [hcount, hidx, List.length_cons]
    omega


/-- One iteration on a plain data byte. -/
theorem loop_data (cfg : UsbConfig) (L : Int) (n : Nat) (w : UsbWorld) (s : UsbSerial)
    (buffer : List Nat) (received : Nat) (hL : (received : Int) < L)
    (hE : (slipFetch cfg w s).2.slipInBuf.getD (slipFetch cfg w s).2.idx 0 ≠ END)
    (hS : (slipFetch cfg w s).2.slipInBuf.getD (slipFetch cfg w s).2.idx 0 ≠ ESC) :
    usbserialReadSlipLoop cfg L (n + 1) w s buffer received
      = usbserialReadSlipLoop cfg L n (slipFetch cfg w s).1
          { (slipFetch cfg w s).2 with idx := (slipFetch cfg w s).2.idx + 1 }
          (buffer.set received
            ((slipFetch cfg w s).2.slipInBuf.getD (slipFetch cfg w s).2.idx 0))
          (received + 1) := by
  simp only [usbserialReadSlipLoop, hL, if_true, hE, hS, if_false]

/-- One iteration on `END` with nothing accumulated. -/
theorem loop_end_skip (cfg : UsbConfig) (L : Int) (n : Nat) (w : UsbWorld) (s : UsbSerial)
    (buffer : List Nat) (hL : ((0 : Nat) : Int) < L)
    (hE : (slipFetch cfg w s).2.slipInBuf.getD (slipFetch cfg w s).2.idx 0 = END) :
    usbserialReadSlipLoop cfg L (n + 1) w s buffer 0
      = usbserialReadSlipLoop cfg L n (slipFetch cfg w s).1
          { (slipFetch cfg w s).2 with idx := (slipFetch cfg w s).2.idx + 1 } buffer 0 := by
  simp only [usbserialReadSlipLoop, hL, if_true, hE, ne_eq, not_true_eq_false, if_false]

/-- One iteration on `END` with bytes accumulated. -/
theorem loop_end_return (cfg : UsbConfig) (L : Int) (n : Nat) (w : UsbWorld) (s : UsbSerial)
    (buffer : List Nat) (received : Nat) (hL : (received : Int) < L) (hr : received ≠ 0)
    (hE : (slipFetch cfg w s).2.slipInBuf.getD (slipFetch cfg w s).2.idx 0 = END) :
    usbserialReadSlipLoop cfg L (n + 1) w s buffer received
      = some ⟨received, buffer, (slipFetch cfg w s).1,
          { (slipFetch cfg w s).2 with idx := (slipFetch cfg w s).2.idx + 1 }⟩ := by
  simp only [usbserialReadSlipLoop, hL, if_true, hE, ne_eq, hr, not_false_eq_true]

/-- One iteration on `ESC` followed by a byte of the same unit. -/
theorem loop_escaped (cfg : UsbConfig) (L : Int) (n : Nat) (w : UsbWorld) (s : UsbSerial)
    (buffer : List Nat) (received : Nat) (y : Nat) (hL : (received : Int) < L)
    (hS : (slipFetch cfg w s).2.slipInBuf.getD (slipFetch cfg w s).2.idx 0 = ESC)
    (hlt : ¬ ((((slipFetch cfg w s).2.idx + 1 : Nat) : Int) ≥ (slipFetch cfg w s).2.slipInCount))
    (hy : (slipFetch cfg w s).2.slipInBuf.getD ((slipFetch cfg w s).2.idx + 1) 0 = y) :
    usbserialReadSlipLoop cfg L (n + 1) w s buffer received
      = usbserialReadSlipLoop cfg L n (slipFetch cfg w s).1
          { (slipFetch cfg w s).2 with idx := (slipFetch cfg w s).2.idx + 1 + 1 }
          (buffer.set received (if y = ESC_END then END else if y = ESC_ESC then ESC else y))
          (received + 1) := by
  have hne : ESC ≠ END := by decide
  simp only [usbserialReadSlipLoop, hL, if_true, hS, hne, if_false, hlt, hy]

/-- Decoding the stuffed form of `b` followed by `END` appends `b` to the caller's buffer and
returns. -/
theorem decode_stuffed (cfg : UsbConfig) (L : Int) (q : List RxOutcome) (k : Nat)
    (b : List Nat) : ∀ (w : UsbWorld) (s : UsbSerial) (cur : List Nat) (rest : List (List Nat))
      (buffer : List Nat) (received : Nat),
      Feeding w s cur rest q → ChunksOk cfg cur rest →
      cur ++ rest.flatten = stuff b ++ [END] →
      0 < received + b.length → ((received + b.length : Nat) : Int) < L →
      received + b.length ≤ buffer.length →
      ∃ r, usbserialReadSlipLoop cfg L (b.length + 1 + k) w s buffer received = some r ∧
        r.rv = ((received + b.length : Nat) : Int) ∧
        r.buffer.take (received + b.length) = buffer.take received ++ b := by
  induction b with
  | nil =>
    intro w s cur rest buffer received hF hC hstream hpos hL _
    obtain ⟨cur', rest', _, _, hF'⟩ := slipFetch_ready cfg w s cur rest q END [] hF hC
      (by simpa [stuff] using hstream)
    obtain ⟨hx, _, _⟩ := hF'.advance
    simp only [List.length_nil, Nat.add_zero] at hpos hL ⊢
    rw [Nat.zero_add, Nat.add_comm 1 k, loop_end_return cfg L k w s buffer received hL
      (by omega) hx]
    exact ⟨_, rfl, rfl, by simp⟩
  | cons c b' ih =>
    intro w s cur rest buffer received hF hC hstream hpos hL hbuf
    have hfuel : (c :: b').length + 1 + k = (b'.length + 1 + k) + 1 := by
      simp only [List.length_cons]; omega
    have hrL : (received : Int) < L := by
      simp only [List.length_cons] at hL; omega
    have hrb : received < buffer.length := by
      simp only [List.length_cons] at hbuf; omega
    have hcount : received + (c :: b').length = (received + 1) + b'.length := by
      simp only [List.length_cons]; omega
    rw [hfuel, hcount]
    rw [hcount] at hL hbuf
    by_cases hE : c = END
    · subst hE
      have hs : cur ++ rest.flatten = ESC :: (ESC_END :: (stuff b' ++ [END])) := by
        simpa [stuff, stuffByte] using hstream
      obtain ⟨cur', rest', hcat, hC', hF'⟩ := slipFetch_ready cfg w s cur rest q ESC _ hF hC hs
      have hne := hC'.after_ESC
      cases cur' with
      | nil => exact absurd rfl hne
      | cons y cur'' =>
        simp only [List.cons_append, List.cons.injEq] at hcat
        obtain ⟨hy, hcat'⟩ := hcat
        subst hy
        obtain ⟨hx, hF2, hlt⟩ := hF'.advance
        obtain ⟨hx2, hF3, _⟩ := hF2.advance
        rw [loop_escaped cfg L _ w s buffer received ESC_END hrL hx (hlt (by simp)) hx2]
        obtain ⟨r, hr, hrv, htake⟩ := ih _ _ cur'' rest' (buffer.set received END)
          (received + 1) hF3 hC'.tail.tail hcat' (by omega) hL (by simpa using hbuf)
        refine ⟨r, by simpa using hr, hrv, ?_⟩
        rw [htake, take_succ_set _ _ _ hrb]
        simp
    · by_cases hS : c = ESC
      · subst hS
        have hs : cur ++ rest.flatten = ESC :: (ESC_ESC :: (stuff b' ++ [END])) := by
          simpa [stuff, stuffByte, hE] using hstream
        obtain ⟨cur', rest', hcat, hC', hF'⟩ :=
          slipFetch_ready cfg w s cur rest q ESC _ hF hC hs
        have hne := hC'.after_ESC
        cases cur' with
        | nil => exact absurd rfl hne
        | cons y cur'' =>
          simp only [List.cons_append, List.cons.injEq] at hcat
          obtain ⟨hy, hcat'⟩ := hcat
          subst hy
          obtain ⟨hx, hF2, hlt⟩ := hF'.advance
          obtain ⟨hx2, hF3, _⟩ := hF2.advance
          rw [loop_escaped cfg L _ w s buffer received ESC_ESC hrL hx (hlt (by simp)) hx2]
          have h1 : ESC_ESC ≠ ESC_END := by decide
          obtain ⟨r, hr, hrv, htake⟩ := ih _ _ cur'' rest' (buffer.set received ESC)
            (received + 1) hF3 hC'.tail.tail hcat' (by omega) hL (by simpa using hbuf)
          refine ⟨r, by simpa [h1] using hr, hrv, ?_⟩
          rw [htake, take_succ_set _ _ _ hrb]
          simp
      · have hs : cur ++ rest.flatten = c :: (stuff b' ++ [END]) := by
          simpa [stuff, stuffByte, hE, hS] using hstream
        obtain ⟨cur', rest', hcat, hC', hF'⟩ := slipFetch_ready cfg w s cur rest q c _ hF hC hs
        obtain ⟨hx, hF2, _⟩ := hF'.advance
        rw [loop_data cfg L _ w s buffer received hrL (by rw [hx]; exact hE)
          (by rw [hx]; exact hS), hx]
        obtain ⟨r, hr, hrv, htake⟩ := ih _ _ cur' rest' (buffer.set received c)
          (received + 1) hF2 hC'.tail hcat (by omega) hL (by simpa using hbuf)
        refine ⟨r, hr, hrv, ?_⟩
        rw [htake, take_succ_set _ _ _ hrb]
        simp

/-- The state that repeats: the unit `END, END` is used up, nothing more arrives, and every
further iteration decodes the stale `END` at `slipInBuf[0]`. -/
theorem empty_frame_spin (n : Nat) :
    usbserialReadSlipLoop cfg64 4 n ⟨true, [], [], []⟩
      { freshSerial cfg64 with
        rxBuf := [END, END] ++ List.replicate 62 0
        slipInBuf := [END, END] ++ List.replicate 62 0
        slipInCount := 0
        idx := 1 } (List.replicate 4 0) 0 = none := by
  induction n with
  | zero => rfl
  | succ m ih => exact Eq.trans (by rfl) ih

/-- C1 (counterexample): the empty payload does not survive the round trip.
`usbserialWriteSlip` emits `END, END` for it; `usbserialReadSlip`, given exactly these wire
bytes and a buffer of 4 bytes, never returns, whatever the number of loop iterations, and
when the frame of the payload `7` follows, the first call returns that payload of 1 byte. -/
theorem roundTrip_empty_payload_counterexample :
    (usbserialWriteSlip cfg64 (hostSends []) (freshSerial cfg64) []).map
        (fun r => r.world.wlog) = some [[END, END]] ∧
    (∀ fuel, usbserialReadSlip cfg64 fuel (hostSends [[END, END]]) (freshSerial cfg64)
        (List.replicate 4 0) 4 = none) ∧
    (usbserialReadSlip cfg64 8 (hostSends [[END, END], [END, 7, END]]) (freshSerial cfg64)
        (List.replicate 4 0) 4).map (fun r => (r.rv, r.buffer.take 1)) = some (1, [7]) := by
  refine ⟨by decide, ?_, by decide⟩
  intro fuel
  match fuel with
  | 0 => rfl
  | 1 => rfl
  | 2 => rfl
  | n + 3 => exact Eq.trans (by rfl) (empty_frame_spin n)

/-- C1 (amended round trip): for every non-empty payload `b` and every caller buffer longer
than `b`, when the wire bytes that `usbserialWriteSlip` emits for `b` reach a drained decoder
in receive units that are non-empty, at most `USBSER_MAX_READ` long and do not end in `ESC`,
`usbserialReadSlip` returns `|b|` with `b` in the first `|b|` bytes of the buffer, after
`|b| + 2` loop iterations. -/
theorem usbserialReadSlip_roundTrip (cfg : UsbConfig) (b : List Nat)
    (w0 : UsbWorld) (s0 : UsbSerial) (sent : List (List Nat))
    (w : UsbWorld) (s : UsbSerial) (chunks : List (List Nat)) (q : List RxOutcome)
    (buffer : List Nat) (k : Nat)
    (hb : b ≠ []) (hfit : b.length < buffer.length)
    (hM : 2 ≤ cfg.USBSER_MAX_WRITE) (hs0 : s0.slipOutBuf.length = cfg.USBSER_MAX_WRITE)
    (hsent : (usbserialWriteSlip cfg w0 s0 b).map (fun r => r.world.wlog)
      = some (w0.wlog ++ sent))
    (hwire : chunks.flatten = sent.flatten)
    (hchunks : ∀ c ∈ chunks, c ≠ [] ∧ c.length ≤ cfg.USBSER_MAX_READ ∧ c.getLast? ≠ some ESC)
    (hconf : w.configured = true)
    (hrxq : w.rxq = chunks.map (RxOutcome.callback true) ++ q)
    (hcnt : s.rxBufCount = 0) (hdrained : (s.idx : Int) ≥ s.slipInCount) :
    ∃ r, usbserialReadSlip cfg (b.length + 2 + k) w s buffer (buffer.length : Int) = some r ∧
      r.rv = (b.length : Int) ∧ r.buffer.take b.length = b := by
  obtain ⟨r0, ws, hrun, hlog, _, hflat⟩ := usbserialWriteSlip_spec cfg w0 s0 b hM hs0
  have hws : ws = sent := by
    rw [hrun, Option.map_some', Option.some.injEq, hlog] at hsent
    exact List.append_cancel_left hsent
  subst hws
  have hstream : ([] : List Nat) ++ chunks.flatten = END :: (stuff b ++ [END]) := by
    rw [List.nil_append, hwire, hflat]
    rfl
  have hF : Feeding w s [] chunks q :=
    ⟨hconf, hrxq, hcnt, fun _ => hdrained, fun h => absurd rfl h⟩
  have hC : ChunksOk cfg [] chunks := ⟨by simp, hchunks⟩
  obtain ⟨cur', rest', hcat, hC', hF'⟩ := slipFetch_ready cfg w s [] chunks q END _ hF hC hstream
  obtain ⟨hx, hF2, _⟩ := hF'.advance
  have hL : ((0 : Nat) : Int) < (buffer.length : Int) := by omega
  have hfuel : b.length + 2 + k = (b.length + 1 + k) + 1 := by omega
  have hpos : 0 < b.length := List.length_pos.mpr hb
  obtain ⟨r, hr, hrv, htake⟩ := decode_stuffed cfg (buffer.length : Int) q k b _ _ cur' rest'
    buffer 0 hF2 hC'.tail hcat (by omega) (by omega) (by omega)
  refine ⟨r, ?_, ?_, ?_⟩
  · rw [usbserialReadSlip, hfuel, loop_end_skip cfg _ _ w s buffer hL hx]
    exact hr
  · rw [hrv]
    simp
  · simpa using htake

/-- C1 at a concrete input: the payload `1, END, ESC, 2` is written with 64-byte units and
reaches the decoder in three receive units, the first of which only holds the leading `END`
and a data byte; the read returns 4 and the buffer starts with the payload. -/
theorem usbserialReadSlip_roundTrip_witness :
    ∃ r, usbserialReadSlip cfg64 (4 + 2 + 0)
        (hostSends [[END, 1], [ESC, ESC_END, ESC, ESC_ESC], [2, END]]) (freshSerial cfg64)
        (List.replicate 8 0) 8 = some r ∧
      r.rv = 4 ∧ r.buffer.take 4 = [1, END, ESC, 2] :=
  usbserialReadSlip_roundTrip cfg64 [1, END, ESC, 2] (hostSends []) (freshSerial cfg64)
    [[END, 1, ESC, ESC_END, ESC, ESC_ESC, 2, END]]
    (hostSends [[END, 1], [ESC, ESC_END, ESC, ESC_ESC], [2, END]]) (freshSerial cfg64)
    [[END, 1], [ESC, ESC_END, ESC, ESC_ESC], [2, END]] [] (List.replicate 8 0) 0
    (by decide) (by decide) (by decide) (by decide) (by decide) (by decide) (by decide)
    (by decide) (by decide) (by decide) (by decide)

/-- C2 (the code at the failing input): the wire stream `END, 65, ESC, ESC_END, END` is the
frame of the payload `65, END`.  Delivered in the two receive units `END, 65, ESC` and
`ESC_END, END`, `usbserialReadSlip` returns the 2 bytes `65, ESC_END`: the `ESC` that ends the
first unit is dropped and the decoder is back in its normal state when the next unit
arrives.  Delivered in one unit it returns `65, END`, which is also what the reference
byte-at-a-time decoder yields on the whole stream. -/
theorem usbserialReadSlip_esc_split_across_reads :
    (usbserialReadSlip cfg64 8 (hostSends [[END, 65, ESC], [ESC_END, END]]) (freshSerial cfg64)
        (List.replicate 8 0) 8).map (fun r => (r.rv, r.buffer.take 2))
      = some (2, [65, ESC_END]) ∧
    (usbserialReadSlip cfg64 8 (hostSends [[END, 65, ESC, ESC_END, END]]) (freshSerial cfg64)
        (List.replicate 8 0) 8).map (fun r => (r.rv, r.buffer.take 2)) = some (2, [65, END]) ∧
    slipDecodeRef 8 SlipState.NORMAL [] ([[END, 65, ESC], [ESC_END, END]].flatten)
      = DecodeResult.payload [65, END] := by
  decide

/-! ### Raw serial reads -/

/-- C6 (the code at the failing input): one USB receive delivers the 4 bytes `10, 20, 30, 40`
and the caller reads twice with length 2.  The first call returns 2 bytes, `10, 20`, and
leaves `rxBufCount = 2`; the second call returns 2 bytes again, and they are `10, 20` once
more, copied from the start of `rxBuf`, not the leftover `30, 40`; afterwards nothing is left
over, so `30, 40` are never served. -/
theorem usbserialRead_leftover_repeats_served_bytes :
    (usbserialRead cfg64 (hostSends [[10, 20, 30, 40]]) (freshSerial cfg64) [0, 0] 2).rv = 2 ∧
    (usbserialRead cfg64 (hostSends [[10, 20, 30, 40]]) (freshSerial cfg64) [0, 0] 2).buffer
      = [10, 20] ∧
    (usbserialRead cfg64 (hostSends [[10, 20, 30, 40]]) (freshSerial cfg64)
      [0, 0] 2).serial.rxBufCount = 2 ∧
    (usbserialRead cfg64
      (usbserialRead cfg64 (hostSends [[10, 20, 30, 40]]) (freshSerial cfg64) [0, 0] 2).world
      (usbserialRead cfg64 (hostSends [[10, 20, 30, 40]]) (freshSerial cfg64) [0, 0] 2).serial
      [0, 0] 2).rv = 2 ∧
    (usbserialRead cfg64
      (usbserialRead cfg64 (hostSends [[10, 20, 30, 40]]) (freshSerial cfg64) [0, 0] 2).world
      (usbserialRead cfg64 (hostSends [[10, 20, 30, 40]]) (freshSerial cfg64) [0, 0] 2).serial
      [0, 0] 2).buffer = [10, 20] ∧
    (usbserialRead cfg64
      (usbserialRead cfg64 (hostSends [[10, 20, 30, 40]]) (freshSerial cfg64) [0, 0] 2).world
      (usbserialRead cfg64 (hostSends [[10, 20, 30, 40]]) (freshSerial cfg64) [0, 0] 2).serial
      [0, 0] 2).serial.rxBufCount = 0 := by
  decide

/-! ### Validity flag and checksum -/

/-- The flag is `NET_VALID` only when the stored checksum matches; kept by every call except
`Network_SetValid(0)`. -/
theorem netStep_valid_matches (st : NetworkState) (c : NetCall)
    (hc : c ≠ NetCall.setValid 0)
    (h : st.Network_Valid = NetValid.NET_VALID → checksumMatches st.eeprom = true) :
    (netStep st c).Network_Valid = NetValid.NET_VALID →
      checksumMatches (netStep st c).eeprom = true := by
  cases c with
  | setAddress a0 a1 a2 a3 => simp [netStep, Network_SetAddress]
  | setMask a0 a1 a2 a3 => simp [netStep, Network_SetMask]
  | setGateway a0 a1 a2 a3 => simp [netStep, Network_SetGateway]
  | setValid v =>
    have hv : v ≠ 0 := fun hv => hc (by rw [hv])
    simp [netStep, Network_SetValid, hv, checksumMatches, storedSum, Eeprom_Read, Eeprom_Write]
  | getValid =>
    simp only [netStep, Network_GetValid, checksumMatches, storedSum, decide_eq_true_eq]
    split
    · intro _; assumption
    · intro hv; simp at hv
  | getAddress =>
    simp only [netStep, Network_GetAddress, checkIfUnchecked, Network_GetValid,
      checksumMatches, storedSum, decide_eq_true_eq] at h ⊢
    repeat' split
    all_goals simp_all
  | getMask =>
    simp only [netStep, Network_GetMask, checkIfUnchecked, Network_GetValid,
      checksumMatches, storedSum, decide_eq_true_eq] at h ⊢
    repeat' split
    all_goals simp_all
  | getGateway =>
    simp only [netStep, Network_GetGateway, checkIfUnchecked, Network_GetValid,
      checksumMatches, storedSum, decide_eq_true_eq] at h ⊢
    repeat' split
    all_goals simp_all

/-- The same over a sequence of calls. -/
theorem netRun_valid_matches (calls : List NetCall) :
    ∀ st : NetworkState, (∀ c ∈ calls, c ≠ NetCall.setValid 0) →
      (st.Network_Valid = NetValid.NET_VALID → checksumMatches st.eeprom = true) →
      (netRun st calls).Network_Valid = NetValid.NET_VALID →
      checksumMatches (netRun st calls).eeprom = true := by
  induction calls with
  | nil => intro st _ h; exact h
  | cons c rest ih =>
    intro st hc h
    exact ih (netStep st c) (fun d hd => hc d (List.mem_cons_of_mem _ hd))
      (netStep_valid_matches st c (hc c (List.mem_cons_self _ _)) h)

/-- C11 (counterexample): from start-up, `Network_SetAddress(10,0,0,5)`,
`Network_SetValid(1)` and `Network_SetAddress(10,0,0,5)` once more lead to a state whose flag
is `NET_INVALID`, not `NET_UNCHECKED`, while the stored checksum equals the wrapping sum of
the stored address, mask and gateway: every setter marks the settings invalid, also when the
checksum still matches. -/
theorem validity_iff_counterexample :
    (netRun ⟨0, NetValid.NET_UNCHECKED, ⟨0, 0, 0, 0, 0⟩⟩
      [NetCall.setAddress 10 0 0 5, NetCall.setValid 1,
        NetCall.setAddress 10 0 0 5]).Network_Valid = NetValid.NET_INVALID ∧
    checksumMatches (netRun ⟨0, NetValid.NET_UNCHECKED, ⟨0, 0, 0, 0, 0⟩⟩
      [NetCall.setAddress 10 0 0 5, NetCall.setValid 1,
        NetCall.setAddress 10 0 0 5]).eeprom = true := by
  decide

/-- C11 (amended validity invariant): in every state reached from start-up (flag
`NET_UNCHECKED`, arbitrary storage) by any sequence of `Network_SetAddress`,
`Network_SetMask`, `Network_SetGateway`, `Network_SetValid` with a non-zero argument,
`Network_GetValid`, `Network_GetAddress`, `Network_GetMask` and `Network_GetGateway` calls,
if the flag is `NET_VALID` then the stored checksum equals the wrapping 32-bit sum of the
stored address, mask and gateway. -/
theorem validity_invariant (st : NetworkState) (calls : List NetCall)
    (hstart : st.Network_Valid = NetValid.NET_UNCHECKED)
    (hcalls : ∀ c ∈ calls, c ≠ NetCall.setValid 0)
    (hvalid : (netRun st calls).Network_Valid = NetValid.NET_VALID) :
    Eeprom_Read (netRun st calls).eeprom EepromKey.EEPROM_SYSTEM_NET_CHECK
      = storedSum (netRun st calls).eeprom := by
  have h := netRun_valid_matches calls st hcalls (by rw [hstart]; intro h; cases h) hvalid
  simpa [checksumMatches] using h

/-- C11 at a concrete input: start-up with arbitrary storage, an address written, validated
and read back. -/
theorem validity_invariant_witness :
    Eeprom_Read (netRun ⟨0, NetValid.NET_UNCHECKED, ⟨1, 2, 3, 4, 5⟩⟩
        [NetCall.setAddress 10 0 0 5, NetCall.setValid 1, NetCall.getAddress]).eeprom
        EepromKey.EEPROM_SYSTEM_NET_CHECK
      = storedSum (netRun ⟨0, NetValid.NET_UNCHECKED, ⟨1, 2, 3, 4, 5⟩⟩
        [NetCall.setAddress 10 0 0 5, NetCall.setValid 1, NetCall.getAddress]).eeprom :=
  validity_invariant ⟨0, NetValid.NET_UNCHECKED, ⟨1, 2, 3, 4, 5⟩⟩
    [NetCall.setAddress 10 0 0 5, NetCall.setValid 1, NetCall.getAddress]
    (by decide) (by decide) (by decide)

/-- The checksum comparison of `Network_GetValid`, in terms of `checksumMatches`. -/
theorem Network_GetValid_eq (st : NetworkState) :
    Network_GetValid st = if checksumMatches st.eeprom then
      (1, { st with Network_Valid := NetValid.NET_VALID })
    else (0, { st with Network_Valid := NetValid.NET_INVALID }) := by
  simp [Network_GetValid, checksumMatches, storedSum]

/-- C12 (lazy validity on get): each getter returns, when the flag is `NET_UNCHECKED`, the
stored field if the stored checksum equals the wrapping sum `address + mask + gateway` and
the factory default otherwise; when the flag is `NET_INVALID`, the factory default whatever
the storage holds; when the flag is `NET_VALID`, the stored field.  After a getter the flag is
not `NET_UNCHECKED`, and no getter changes the storage. -/
theorem getters_lazy_validity (st : NetworkState) (e : Eeprom) :
    ((Network_GetAddress st).2.1 = (match st.Network_Valid with
        | NetValid.NET_UNCHECKED =>
          if checksumMatches st.eeprom then
            storedOctets (Eeprom_Read st.eeprom EepromKey.EEPROM_SYSTEM_NET_ADDRESS)
          else ⟨192, 168, 0, 200⟩
        | NetValid.NET_INVALID => ⟨192, 168, 0, 200⟩
        | NetValid.NET_VALID =>
          storedOctets (Eeprom_Read st.eeprom EepromKey.EEPROM_SYSTEM_NET_ADDRESS)) ∧
      (Network_GetMask st).2.1 = (match st.Network_Valid with
        | NetValid.NET_UNCHECKED =>
          if checksumMatches st.eeprom then
            storedOctets (Eeprom_Read st.eeprom EepromKey.EEPROM_SYSTEM_NET_MASK)
          else ⟨255, 255, 255, 0⟩
        | NetValid.NET_INVALID => ⟨255, 255, 255, 0⟩
        | NetValid.NET_VALID =>
          storedOctets (Eeprom_Read st.eeprom EepromKey.EEPROM_SYSTEM_NET_MASK)) ∧
      (Network_GetGateway st).2.1 = (match st.Network_Valid with
        | NetValid.NET_UNCHECKED =>
          if checksumMatches st.eeprom then
            storedOctets (Eeprom_Read st.eeprom EepromKey.EEPROM_SYSTEM_NET_GATEWAY)
          else ⟨192, 168, 0, 1⟩
        | NetValid.NET_INVALID => ⟨192, 168, 0, 1⟩
        | NetValid.NET_VALID =>
          storedOctets (Eeprom_Read st.eeprom EepromKey.EEPROM_SYSTEM_NET_GATEWAY))) ∧
    ((Network_GetAddress { st with Network_Valid := NetValid.NET_INVALID, eeprom := e }).2.1
        = ⟨192, 168, 0, 200⟩ ∧
      (Network_GetMask { st with Network_Valid := NetValid.NET_INVALID, eeprom := e }).2.1
        = ⟨255, 255, 255, 0⟩ ∧
      (Network_GetGateway { st with Network_Valid := NetValid.NET_INVALID, eeprom := e }).2.1
        = ⟨192, 168, 0, 1⟩) ∧
    ((Network_GetAddress st).2.2.Network_Valid ≠ NetValid.NET_UNCHECKED ∧
      (Network_GetMask st).2.2.Network_Valid ≠ NetValid.NET_UNCHECKED ∧
      (Network_GetGateway st).2.2.Network_Valid ≠ NetValid.NET_UNCHECKED) ∧
    ((Network_GetAddress st).2.2.eeprom = st.eeprom ∧
      (Network_GetMask st).2.2.eeprom = st.eeprom ∧
      (Network_GetGateway st).2.2.eeprom = st.eeprom) := by
  obtain ⟨act, flag, e0⟩ := st
  cases hb : checksumMatches e0 <;> cases flag <;>
    simp [Network_GetAddress, Network_GetMask, Network_GetGateway, checkIfUnchecked,
      Network_GetValid_eq, storedOctets, hb]

/-- C13 (counterexample): the settings 10.0.0.5 / 255.255.255.0 / 10.0.0.1 are validated with
`Network_SetValid(1)`; afterwards the address is changed to 11.0.0.5 and the gateway to
9.0.0.1, without calling `Network_SetValid` again.  The wrapping sum of the three words is
the same as before, so after a power cycle `Network_GetValid()` returns 1 and
`Network_GetAddress` returns the unvalidated 11.0.0.5, not the factory default. -/
theorem checksum_misses_compensating_changes :
    (Network_GetValid (powerCycle (netRun ⟨0, NetValid.NET_UNCHECKED, ⟨0, 0, 0, 0, 0⟩⟩
      [NetCall.setAddress 10 0 0 5, NetCall.setMask 255 255 255 0,
        NetCall.setGateway 10 0 0 1, NetCall.setValid 1,
        NetCall.setAddress 11 0 0 5, NetCall.setGateway 9 0 0 1]))).1 = 1 ∧
    (Network_GetAddress (powerCycle (netRun ⟨0, NetValid.NET_UNCHECKED, ⟨0, 0, 0, 0, 0⟩⟩
      [NetCall.setAddress 10 0 0 5, NetCall.setMask 255 255 255 0,
        NetCall.setGateway 10 0 0 1, NetCall.setValid 1,
        NetCall.setAddress 11 0 0 5, NetCall.setGateway 9 0 0 1]))).2.1 = ⟨11, 0, 0, 5⟩ := by
  decide

/-- The packed word fits 32 bits. -/
theorem IP_ADDRESS_lt (a0 a1 a2 a3 : Int) : IP_ADDRESS a0 a1 a2 a3 < 4294967296 := by
  unfold IP_ADDRESS
  omega

/-- What a board reads after a power cycle: the checksum comparison decides between the
stored words and the factory defaults. -/
theorem reads_after_powerCycle (st : NetworkState) :
    (Network_GetValid (powerCycle st)).1 = (if checksumMatches st.eeprom then 1 else 0) ∧
    (Network_GetAddress (powerCycle st)).2.1 = (if checksumMatches st.eeprom then
      storedOctets (Eeprom_Read st.eeprom EepromKey.EEPROM_SYSTEM_NET_ADDRESS)
      else ⟨192, 168, 0, 200⟩) ∧
    (Network_GetMask (powerCycle st)).2.1 = (if checksumMatches st.eeprom then
      storedOctets (Eeprom_Read st.eeprom EepromKey.EEPROM_SYSTEM_NET_MASK)
      else ⟨255, 255, 255, 0⟩) ∧
    (Network_GetGateway (powerCycle st)).2.1 = (if checksumMatches st.eeprom then
      storedOctets (Eeprom_Read st.eeprom EepromKey.EEPROM_SYSTEM_NET_GATEWAY)
      else ⟨192, 168, 0, 1⟩) := by
  cases hb : checksumMatches st.eeprom <;>
    simp [Network_GetAddress, Network_GetMask, Network_GetGateway, checkIfUnchecked,
      Network_GetValid_eq, powerCycle, storedOctets, hb]

/-- C13 (amended): after `Network_SetValid(1)`, when one address setting (address, mask or
gateway) is changed to a different value and `Network_SetValid` is not called again, then
after a power cycle `Network_GetValid()` returns 0 and the getters return the factory
defaults; when nothing is changed after `Network_SetValid(1)`, after the power cycle
`Network_GetValid()` returns 1 and the getters return the stored values. -/
theorem checksum_detects_single_change (st : NetworkState) (f : NetField) (a0 a1 a2 a3 : Int)
    (hdiff : IP_ADDRESS a0 a1 a2 a3 ≠ Eeprom_Read st.eeprom f.key) :
    ((Network_GetValid
        (powerCycle (Network_Set f (Network_SetValid st 1).2 a0 a1 a2 a3).2)).1 = 0 ∧
      (Network_GetAddress
        (powerCycle (Network_Set f (Network_SetValid st 1).2 a0 a1 a2 a3).2)).2.1
        = ⟨192, 168, 0, 200⟩ ∧
      (Network_GetMask
        (powerCycle (Network_Set f (Network_SetValid st 1).2 a0 a1 a2 a3).2)).2.1
        = ⟨255, 255, 255, 0⟩ ∧
      (Network_GetGateway
        (powerCycle (Network_Set f (Network_SetValid st 1).2 a0 a1 a2 a3).2)).2.1
        = ⟨192, 168, 0, 1⟩) ∧
    ((Network_GetValid (powerCycle (Network_SetValid st 1).2)).1 = 1 ∧
      (Network_GetAddress (powerCycle (Network_SetValid st 1).2)).2.1
        = storedOctets (Eeprom_Read st.eeprom EepromKey.EEPROM_SYSTEM_NET_ADDRESS) ∧
      (Network_GetMask (powerCycle (Network_SetValid st 1).2)).2.1
        = storedOctets (Eeprom_Read st.eeprom EepromKey.EEPROM_SYSTEM_NET_MASK) ∧
      (Network_GetGateway (powerCycle (Network_SetValid st 1).2)).2.1
        = storedOctets (Eeprom_Read st.eeprom EepromKey.EEPROM_SYSTEM_NET_GATEWAY)) := by
  have hlt := IP_ADDRESS_lt a0 a1 a2 a3
  have hsame : checksumMatches (Network_SetValid st 1).2.eeprom = true := by
    simp [checksumMatches, storedSum, Network_SetValid, Eeprom_Read, Eeprom_Write]
  have hchanged : checksumMatches
      (Network_Set f (Network_SetValid st 1).2 a0 a1 a2 a3).2.eeprom = false := by
    cases f <;>
      simp only [NetField.key, Eeprom_Read] at hdiff <;>
      simp only [checksumMatches, storedSum, Network_Set, Network_SetAddress,
        Network_SetMask, Network_SetGateway, Network_SetValid, Eeprom_Read, Eeprom_Write,
        decide_eq_false_iff_not, ne_eq, one_ne_zero, not_false_eq_true, if_true] <;>
      omega
  obtain ⟨c1, c2, c3, c4⟩ := reads_after_powerCycle
    (Network_Set f (Network_SetValid st 1).2 a0 a1 a2 a3).2
  obtain ⟨u1, u2, u3, u4⟩ := reads_after_powerCycle (Network_SetValid st 1).2
  rw [c1, c2, c3, c4, u1, u2, u3, u4, hchanged, hsame]
  simp [Network_SetValid, Eeprom_Read, Eeprom_Write]

/-- C13 at a concrete input: 10.0.0.5 validated, then the address changed to 10.0.0.6. -/
theorem checksum_detects_single_change_witness :
    IP_ADDRESS 10 0 0 6 ≠ Eeprom_Read (netRun ⟨0, NetValid.NET_UNCHECKED, ⟨0, 0, 0, 0, 0⟩⟩
      [NetCall.setAddress 10 0 0 5]).eeprom NetField.address.key ∧
    (Network_GetValid (powerCycle (Network_Set NetField.address (Network_SetValid
      (netRun ⟨0, NetValid.NET_UNCHECKED, ⟨0, 0, 0, 0, 0⟩⟩ [NetCall.setAddress 10 0 0 5]) 1).2
      10 0 0 6).2)).1 = 0 :=
  ⟨by decide, (checksum_detects_single_change
    (netRun ⟨0, NetValid.NET_UNCHECKED, ⟨0, 0, 0, 0, 0⟩⟩ [NetCall.setAddress 10 0 0 5])
    NetField.address 10 0 0 6 (by decide)).1.1⟩

/-! ### OSC properties of the network subsystem -/

/-- C19 (the code at the failing inputs): a get of property 6 (`osc_udp_port`), 8
(`osc_tcpout_port`), 9 (`tcpout_connect`) or 10 (`tcpout_autoconnect`) returns
`CONTROLLER_OK` and leaves the list of replies as it was: no value and no error is sent.  A
get of property 0 (`active`) sends one message, addressed to `/network/active`. -/
theorem NetworkOsc_PropertyGet_silent_properties (s : OscState) (channel : Int) :
    NetworkOsc_PropertyGet s 6 channel = (CONTROLLER_OK, s) ∧
    NetworkOsc_PropertyGet s 8 channel = (CONTROLLER_OK, s) ∧
    NetworkOsc_PropertyGet s 9 channel = (CONTROLLER_OK, s) ∧
    NetworkOsc_PropertyGet s 10 channel = (CONTROLLER_OK, s) ∧
    (NetworkOsc_PropertyGet s 0 channel).2.out
      = s.out ++ [(channel, OscReply.message "/network/active"
          (OscValue.int s.board.net.Network_Active))] := by
  refine ⟨?_, ?_, ?_, ?_, ?_⟩
  · simp [NetworkOsc_PropertyGet]
  · simp [NetworkOsc_PropertyGet]
  · simp [NetworkOsc_PropertyGet]
  · simp [NetworkOsc_PropertyGet]
  · have h : propertyAddress 0 = "/network/active" := by decide
    simp [NetworkOsc_PropertyGet, Osc_CreateMessage, Network_GetActive, h]

/-- C20 (the code at the failing input): `NetworkOsc_PropertySet` on property 7
(`osc_tcpout_address`) with the one string argument `192.168.0.10` persists the packed address
under `EEPROM_TCP_REMOTE_ADDRESS`, and then, for want of a `break`, continues into the case of
property 8: it sends the error reply "TCP port over OSC not implemented." tagged `network` and
returns what `Osc_SubsystemError` returns. -/
theorem NetworkOsc_PropertySet_tcpout_address_falls_through :
    (NetworkOsc_PropertySet envOneAddress ⟨bootBoard 0 ⟨0, 0, 0, 0, 0⟩, []⟩ 7
        [OscArg.str "192.168.0.10"] 1).2.board.net.eeprom.tcpRemoteAddress
      = IP_ADDRESS 192 168 0 10 ∧
    (NetworkOsc_PropertySet envOneAddress ⟨bootBoard 0 ⟨0, 0, 0, 0, 0⟩, []⟩ 7
        [OscArg.str "192.168.0.10"] 1).2.out
      = [(1, OscReply.error "network" "TCP port over OSC not implemented.")] ∧
    (NetworkOsc_PropertySet envOneAddress ⟨bootBoard 0 ⟨0, 0, 0, 0, 0⟩, []⟩ 7
        [OscArg.str "192.168.0.10"] 1).1 = envOneAddress.subsystemErrorStatus := by
  decide

/-! ### SLIP decoder: frames, overflow and stray escapes -/

/-- While the stream is not exhausted, `slipFetch` leaves its next byte pending; it takes a
receive unit from the queue only when nothing is pending. -/
theorem slipFetch_next (cfg : UsbConfig) (w : UsbWorld) (s : UsbSerial) (cur : List Nat)
    (rest : List (List Nat)) (q : List RxOutcome) (x : Nat) (tl : List Nat)
    (hF : Feeding w s cur rest q) (hC : ChunksOk cfg cur rest)
    (hstream : cur ++ rest.flatten = x :: tl) :
    ∃ cur' rest', cur' ++ rest'.flatten = tl ∧ ChunksOk cfg (x :: cur') rest' ∧
      Feeding (slipFetch cfg w s).1 (slipFetch cfg w s).2 (x :: cur') rest' q ∧
      rest'.length ≤ rest.length ∧ (cur = [] → rest'.length < rest.length) := by
  cases cur with
  | cons y cur0 =>
    simp only [List.cons_append, List.cons.injEq] at hstream
    obtain ⟨hy, htl⟩ := hstream
    subst hy
    obtain ⟨pre, post, hbuf, hidx, hcount⟩ := hF.pending (by simp)
    have hlt : ¬ ((s.idx : Int) ≥ s.slipInCount) := by
      rw [hcount, hidx]
      simp only [List.length_cons]
      omega
    have hfetch : slipFetch cfg w s = (w, s) := by
      simp only [slipFetch, hlt, if_false]
    rw [hfetch]
    exact ⟨cur0, rest, htl, hC, hF, Nat.le_refl _, fun h => by simp at h⟩
  | nil =>
    cases rest with
    | nil => simp at hstream
    | cons chunk rest0 =>
      obtain ⟨hne, hlen, hlast⟩ := hC.2 chunk (by simp)
      cases chunk with
      | nil => exact absurd rfl hne
      | cons y c0 =>
        simp only [List.nil_append, List.flatten_cons, List.cons_append, List.cons.injEq]
          at hstream
        obtain ⟨hy, htl⟩ := hstream
        subst hy
        have hq : w.rxq = RxOutcome.callback true (y :: c0)
            :: (rest0.map (RxOutcome.callback true) ++ q) := by
          rw [hF.rxq]
          rfl
        obtain ⟨h1, h2, h3, h4, h5⟩ := usbserialRead_unit cfg w s s.slipInBuf (y :: c0) _
          hF.conf hF.cnt hq hne hlen
        have hdr := hF.drained rfl
        refine ⟨c0, rest0, htl, ⟨hlast, fun c hc => hC.2 c (List.mem_cons_of_mem _ hc)⟩, ?_,
          by simp, fun _ => by simp⟩
        simp only [slipFetch, hdr, if_true]
        refine ⟨h3, h4, h5, fun h => absurd h (by simp), fun _ => ?_⟩
        refine ⟨[], s.slipInBuf.drop (y :: c0).length, ?_, rfl, ?_⟩
        · simp only [h2, List.nil_append]
        · simp only [h1, List.length_nil, Nat.zero_add]

/-- A store below `p` leaves the cells from `p` on as they were. -/
theorem getElem?_set_below (l : List Nat) (r c i : Nat) (h : r < i) :
    (l.set r c)[i]? = l[i]? := by
  rw [List.getElem?_set_ne (by omega)]

/-- Decoding the stuffed form of `b`: one iteration per payload byte, each appending the byte
to the caller's buffer. -/
theorem decode_payload (cfg : UsbConfig) (L : Int) (q : List RxOutcome) (b : List Nat) :
    ∀ (w : UsbWorld) (s : UsbSerial) (cur : List Nat) (rest : List (List Nat))
      (buffer : List Nat) (received : Nat) (tail : List Nat),
      Feeding w s cur rest q → ChunksOk cfg cur rest →
      cur ++ rest.flatten = stuff b ++ tail →
      ((received + b.length : Nat) : Int) ≤ L → received + b.length ≤ buffer.length →
      Consumed cfg L q w s rest buffer received b.length b tail := by
  induction b with
  | nil =>
    intro w s cur rest buffer received tail hF hC hstream _ _
    exact ⟨w, s, cur, rest, buffer, hF, hC, by simpa [stuff] using hstream, Nat.le_refl _,
      fun n => by simp, by simp, rfl, fun i _ => rfl⟩
  | cons c b' ih =>
    intro w s cur rest buffer received tail hF hC hstream hL hbuf
    have hrL : (received : Int) < L := by
      simp only [List.length_cons] at hL; omega
    have hrb : received < buffer.length := by
      simp only [List.length_cons] at hbuf; omega
    have hcount : received + (c :: b').length = (received + 1) + b'.length := by
      simp only [List.length_cons]; omega
    have hfuel : ∀ n, (c :: b').length + n = (b'.length + n) + 1 := by
      intro n; simp only [List.length_cons]; omega
    rw [hcount] at hL hbuf
    have key : ∀ (w1 : UsbWorld) (s1 : UsbSerial) (cur1 : List Nat) (rest1 : List (List Nat))
        (d : Nat), Feeding w1 s1 cur1 rest1 q → ChunksOk cfg cur1 rest1 →
        cur1 ++ rest1.flatten = stuff b' ++ tail → rest1.length ≤ rest.length →
        (∀ n, usbserialReadSlipLoop cfg L (n + 1) w s buffer received
          = usbserialReadSlipLoop cfg L n w1 s1 (buffer.set received d) (received + 1)) →
        d = c → Consumed cfg L q w s rest buffer received (c :: b').length (c :: b') tail := by
      intro w1 s1 cur1 rest1 d hF1 hC1 hcat1 hlen1 hstep hd
      subst hd
      obtain ⟨w', s', cur', rest', buffer', hF', hC', hcat', hlen', hrun, htake, hblen, hfar⟩ :=
        (ih w1 s1 cur1 rest1 (buffer.set received d) (received + 1) tail hF1 hC1 hcat1 hL
          (by simpa using hbuf)).run
      refine ⟨w', s', cur', rest', buffer', hF', hC', hcat', Nat.le_trans hlen' hlen1, ?_, ?_,
        ?_, ?_⟩
      · intro n
        rw [hfuel n, hstep, hrun n, hcount]
      · rw [hcount, htake, take_succ_set _ _ _ hrb]
        simp
      · simpa using hblen
      · intro i hi
        rw [hcount] at hi
        rw [hfar i hi, getElem?_set_below _ _ _ _ (by omega)]
    by_cases hE : c = END
    · subst hE
      have hs : cur ++ rest.flatten = ESC :: (ESC_END :: (stuff b' ++ tail)) := by
        simpa [stuff, stuffByte] using hstream
      obtain ⟨cur', rest', hcat, hC', hF', hlen, _⟩ :=
        slipFetch_next cfg w s cur rest q ESC _ hF hC hs
      have hne := hC'.after_ESC
      cases cur' with
      | nil => exact absurd rfl hne
      | cons y cur'' =>
        simp only [List.cons_append, List.cons.injEq] at hcat
        obtain ⟨hy, hcat'⟩ := hcat
        subst hy
        obtain ⟨hx, hF2, hlt⟩ := hF'.advance
        obtain ⟨hx2, hF3, _⟩ := hF2.advance
        refine key _ _ cur'' rest' END hF3 hC'.tail.tail hcat' hlen (fun n => ?_) rfl
        rw [loop_escaped cfg L n w s buffer received ESC_END hrL hx (hlt (by simp)) hx2]
        simp
    · by_cases hS : c = ESC
      · subst hS
        have hs : cur ++ rest.flatten = ESC :: (ESC_ESC :: (stuff b' ++ tail)) := by
          simpa [stuff, stuffByte, hE] using hstream
        obtain ⟨cur', rest', hcat, hC', hF', hlen, _⟩ :=
          slipFetch_next cfg w s cur rest q ESC _ hF hC hs
        have hne := hC'.after_ESC
        cases cur' with
        | nil => exact absurd rfl hne
        | cons y cur'' =>
          simp only [List.cons_append, List.cons.injEq] at hcat
          obtain ⟨hy, hcat'⟩ := hcat
          subst hy
          obtain ⟨hx, hF2, hlt⟩ := hF'.advance
          obtain ⟨hx2, hF3, _⟩ := hF2.advance
          have h1 : ESC_ESC ≠ ESC_END := by decide
          refine key _ _ cur'' rest' ESC hF3 hC'.tail.tail hcat' hlen (fun n => ?_) rfl
          rw [loop_escaped cfg L n w s buffer received ESC_ESC hrL hx (hlt (by simp)) hx2]
          simp [h1]
      · have hs : cur ++ rest.flatten = c :: (stuff b' ++ tail) := by
          simpa [stuff, stuffByte, hE, hS] using hstream
        obtain ⟨cur', rest', hcat, hC', hF', hlen, _⟩ :=
          slipFetch_next cfg w s cur rest q c _ hF hC hs
        obtain ⟨hx, hF2, _⟩ := hF'.advance
        refine key _ _ cur' rest' c hF2 hC'.tail hcat hlen (fun n => ?_) rfl
        rw [loop_data cfg L n w s buffer received hrL (by rw [hx]; exact hE)
          (by rw [hx]; exact hS), hx]

/-- An `END` met with nothing accumulated is passed over in one iteration. -/
theorem skip_END (cfg : UsbConfig) (L : Int) (w : UsbWorld) (s : UsbSerial) (cur : List Nat)
    (rest : List (List Nat)) (q : List RxOutcome) (tail : List Nat)
    (hF : Feeding w s cur rest q) (hC : ChunksOk cfg cur rest)
    (hstream : cur ++ rest.flatten = END :: tail) (hL : 0 < L) :
    ∃ w' s' cur' rest', Feeding w' s' cur' rest' q ∧ ChunksOk cfg cur' rest' ∧
      cur' ++ rest'.flatten = tail ∧ rest'.length ≤ rest.length ∧
      (cur = [] → rest'.length < rest.length) ∧
      ∀ n buffer, usbserialReadSlipLoop cfg L (n + 1) w s buffer 0
        = usbserialReadSlipLoop cfg L n w' s' buffer 0 := by
  obtain ⟨cur', rest', hcat, hC', hF', hlen, hlt⟩ :=
    slipFetch_next cfg w s cur rest q END _ hF hC hstream
  obtain ⟨hx, hF2, _⟩ := hF'.advance
  exact ⟨_, _, cur', rest', hF2, hC'.tail, hcat, hlen, hlt,
    fun n buffer => loop_end_skip cfg L n w s buffer (by simpa using hL) hx⟩

/-- An `END` met with bytes accumulated ends the call, which returns their number. -/
theorem return_at_END (cfg : UsbConfig) (L : Int) (w : UsbWorld) (s : UsbSerial)
    (cur : List Nat) (rest : List (List Nat)) (q : List RxOutcome) (tail : List Nat)
    (received : Nat) (hF : Feeding w s cur rest q) (hC : ChunksOk cfg cur rest)
    (hstream : cur ++ rest.flatten = END :: tail) (hL : (received : Int) < L)
    (hr : received ≠ 0) :
    ∃ w' s' cur' rest', Feeding w' s' cur' rest' q ∧ ChunksOk cfg cur' rest' ∧
      cur' ++ rest'.flatten = tail ∧ rest'.length ≤ rest.length ∧
      ∀ n buffer, usbserialReadSlipLoop cfg L (n + 1) w s buffer received
        = some ⟨received, buffer, w', s'⟩ := by
  obtain ⟨cur', rest', hcat, hC', hF', hlen, _⟩ :=
    slipFetch_next cfg w s cur rest q END _ hF hC hstream
  obtain ⟨hx, hF2, _⟩ := hF'.advance
  exact ⟨_, _, cur', rest', hF2, hC'.tail, hcat, hlen,
    fun n buffer => loop_end_return cfg L n w s buffer received hL hr hx⟩

/-- One complete frame, `END`, the stuffed form of a non-empty payload `b`, `END`, is decoded
by one call in `|b| + 2` iterations; the call returns `|b|` with `b` at the start of the
buffer and leaves the decoder fed with what follows the frame. -/
theorem decode_frame (cfg : UsbConfig) (L : Int) (w : UsbWorld) (s : UsbSerial)
    (cur : List Nat) (rest : List (List Nat)) (q : List RxOutcome) (b tail : List Nat)
    (buffer : List Nat) (hF : Feeding w s cur rest q) (hC : ChunksOk cfg cur rest)
    (hstream : cur ++ rest.flatten = END :: (stuff b ++ END :: tail))
    (hb : b ≠ []) (hL : (b.length : Int) < L) (hbuf : b.length ≤ buffer.length) :
    ∃ w' s' cur' rest' buffer', Feeding w' s' cur' rest' q ∧ ChunksOk cfg cur' rest' ∧
      cur' ++ rest'.flatten = tail ∧ rest'.length ≤ rest.length ∧
      (cur = [] → rest'.length < rest.length) ∧
      (∀ n, usbserialReadSlipLoop cfg L (b.length + 2 + n) w s buffer 0
        = some ⟨b.length, buffer', w', s'⟩) ∧
      buffer'.take b.length = b ∧ buffer'.length = buffer.length := by
  have hpos : 0 < b.length := List.length_pos.mpr hb
  obtain ⟨w1, s1, cur1, rest1, hF1, hC1, hcat1, hlen1, hlt1, hrun1⟩ :=
    skip_END cfg L w s cur rest q _ hF hC hstream (by omega)
  obtain ⟨w2, s2, cur2, rest2, buffer2, hF2, hC2, hcat2, hlen2, hrun2, htake2, hblen2, _⟩ :=
    (decode_payload cfg L q b w1 s1 cur1 rest1 buffer 0 (END :: tail) hF1 hC1 hcat1
      (by omega) (by omega)).run
  obtain ⟨w3, s3, cur3, rest3, hF3, hC3, hcat3, hlen3, hrun3⟩ :=
    return_at_END cfg L w2 s2 cur2 rest2 q tail (0 + b.length) hF2 hC2 hcat2 (by omega)
      (by omega)
  refine ⟨w3, s3, cur3, rest3, buffer2, hF3, hC3, hcat3, by omega, fun h => ?_, fun n => ?_,
    by simpa using htake2, hblen2⟩
  · have := hlt1 h
    omega
  · have e : b.length + 2 + n = (b.length + (n + 1)) + 1 := by omega
    rw [e, hrun1, hrun2, hrun3]
    simp

/-- Whatever the input, a call that returns has written the caller's buffer only below
`length`, and has kept its size. -/
theorem loop_writes_below_length (cfg : UsbConfig) (L : Int) (fuel : Nat) :
    ∀ (w : UsbWorld) (s : UsbSerial) (buffer : List Nat) (received : Nat) (r : ReadResult),
      usbserialReadSlipLoop cfg L fuel w s buffer received = some r →
      r.buffer.length = buffer.length ∧ ∀ i : Nat, L ≤ (i : Int) → r.buffer[i]? = buffer[i]? := by
  induction fuel with
  | zero => intro w s buffer received r h; simp [usbserialReadSlipLoop] at h
  | succ n ih =>
    intro w s buffer received r h
    simp only [usbserialReadSlipLoop] at h
    split at h
    · rename_i hlt
      have hset : ∀ c : Nat, (buffer.set received c).length = buffer.length ∧
          ∀ i : Nat, L ≤ (i : Int) → (buffer.set received c)[i]? = buffer[i]? :=
        fun c => ⟨by simp, fun i hi => getElem?_set_below _ _ _ _ (by omega)⟩
      split at h
      · split at h
        · simp only [Option.some.injEq] at h
          subst h
          exact ⟨rfl, fun _ _ => rfl⟩
        · exact ih _ _ _ _ _ h
      · split at h
        · split at h
          · exact ih _ _ _ _ _ h
          · obtain ⟨h1, h2⟩ := ih _ _ _ _ _ h
            exact ⟨by rw [h1, (hset _).1], fun i hi => by rw [h2 i hi, (hset _).2 i hi]⟩
        · obtain ⟨h1, h2⟩ := ih _ _ _ _ _ h
          exact ⟨by rw [h1, (hset _).1], fun i hi => by rw [h2 i hi, (hset _).2 i hi]⟩
    · simp only [Option.some.injEq] at h
      subst h
      exact ⟨rfl, fun _ _ => rfl⟩

/-- Whatever the input, a call that returns gives either the error code or a positive
count, never less than the bytes already accumulated. -/
theorem loop_returns_error_or_positive (cfg : UsbConfig) (L : Int) (fuel : Nat) :
    ∀ (w : UsbWorld) (s : UsbSerial) (buffer : List Nat) (received : Nat) (r : ReadResult),
      usbserialReadSlipLoop cfg L fuel w s buffer received = some r →
      r.rv = cfg.CONTROLLER_ERROR_BAD_FORMAT ∨ (0 < r.rv ∧ (received : Int) ≤ r.rv) := by
  induction fuel with
  | zero => intro w s buffer received r h; simp [usbserialReadSlipLoop] at h
  | succ n ih =>
    intro w s buffer received r h
    simp only [usbserialReadSlipLoop] at h
    have hstep : ∀ (w1 : UsbWorld) (s1 : UsbSerial) (b1 : List Nat),
        usbserialReadSlipLoop cfg L n w1 s1 b1 (received + 1) = some r →
        r.rv = cfg.CONTROLLER_ERROR_BAD_FORMAT ∨ (0 < r.rv ∧ (received : Int) ≤ r.rv) := by
      intro w1 s1 b1 h1
      rcases ih _ _ _ _ _ h1 with h2 | ⟨h2, h3⟩
      · exact Or.inl h2
      · exact Or.inr ⟨h2, by push_cast at h3; omega⟩
    split at h
    · split at h
      · split at h
        · rename_i hne
          simp only [Option.some.injEq] at h
          subst h
          exact Or.inr ⟨by simp only; omega, by simp⟩
        · exact ih _ _ _ _ _ h
      · split at h
        · split at h
          · exact ih _ _ _ _ _ h
          · exact hstep _ _ _ h
        · exact hstep _ _ _ h
    · simp only [Option.some.injEq] at h
      subst h
      exact Or.inl rfl

/-- Any number of leading `END` bytes is passed over, one iteration each. -/
theorem skip_ENDs (cfg : UsbConfig) (L : Int) (q : List RxOutcome) (hL : 0 < L) (j : Nat) :
    ∀ (w : UsbWorld) (s : UsbSerial) (cur : List Nat) (rest : List (List Nat))
      (tail : List Nat), Feeding w s cur rest q → ChunksOk cfg cur rest →
      cur ++ rest.flatten = List.replicate j END ++ tail →
      ∃ w' s' cur' rest', Feeding w' s' cur' rest' q ∧ ChunksOk cfg cur' rest' ∧
        cur' ++ rest'.flatten = tail ∧
        ∀ n buffer, usbserialReadSlipLoop cfg L (j + n) w s buffer 0
          = usbserialReadSlipLoop cfg L n w' s' buffer 0 := by
  induction j with
  | zero =>
    intro w s cur rest tail hF hC hstream
    exact ⟨w, s, cur, rest, hF, hC, by simpa using hstream, fun n buffer => by simp⟩
  | succ i ih =>
    intro w s cur rest tail hF hC hstream
    obtain ⟨w1, s1, cur1, rest1, hF1, hC1, hcat1, _, _, hrun1⟩ :=
      skip_END cfg L w s cur rest q (List.replicate i END ++ tail) hF hC
        (by simpa [List.replicate_succ] using hstream) hL
    obtain ⟨w2, s2, cur2, rest2, hF2, hC2, hcat2, hrun2⟩ := ih w1 s1 cur1 rest1 tail hF1 hC1 hcat1
    refine ⟨w2, s2, cur2, rest2, hF2, hC2, hcat2, fun n buffer => ?_⟩
    have e : i + 1 + n = (i + n) + 1 := by omega
    rw [e, hrun1, hrun2]

/-- C15 (bounded-buffer failure): for every `length >= 1`, when the stream reaching a drained
decoder holds, after any number of leading `END` bytes, the stuffed form of `length` data
bytes `d` before any terminating `END`, `usbserialReadSlip` returns
`CONTROLLER_ERROR_BAD_FORMAT` after `length` stores, the first `length` bytes of the buffer
are `d` and no cell from index `length` on has changed.  The error code, being negative, is
no byte count.  In every execution that returns, whatever the input, the buffer keeps its
size and its cells from index `length` on. -/
theorem usbserialReadSlip_bounded_buffer (cfg : UsbConfig) (d tail : List Nat) (j : Nat)
    (w : UsbWorld) (s : UsbSerial) (chunks : List (List Nat)) (q : List RxOutcome)
    (buffer : List Nat) (L k : Nat)
    (hL : 1 ≤ L) (hd : d.length = L) (hbuf : L ≤ buffer.length)
    (hneg : cfg.CONTROLLER_ERROR_BAD_FORMAT < 0)
    (hwire : chunks.flatten = List.replicate j END ++ (stuff d ++ tail))
    (hchunks : ∀ c ∈ chunks, c ≠ [] ∧ c.length ≤ cfg.USBSER_MAX_READ ∧ c.getLast? ≠ some ESC)
    (hconf : w.configured = true)
    (hrxq : w.rxq = chunks.map (RxOutcome.callback true) ++ q)
    (hcnt : s.rxBufCount = 0) (hdrained : (s.idx : Int) ≥ s.slipInCount) :
    (∃ r, usbserialReadSlip cfg (j + L + 1 + k) w s buffer (L : Int) = some r ∧
      r.rv = cfg.CONTROLLER_ERROR_BAD_FORMAT ∧ r.buffer.take L = d ∧
      ∀ i, L ≤ i → r.buffer[i]? = buffer[i]?) ∧
    (∀ count : Nat, (count : Int) ≠ cfg.CONTROLLER_ERROR_BAD_FORMAT) ∧
    (∀ (fuel : Nat) (w' : UsbWorld) (s' : UsbSerial) (buffer' : List Nat) (r' : ReadResult),
      usbserialReadSlip cfg fuel w' s' buffer' (L : Int) = some r' →
      r'.buffer.length = buffer'.length ∧ ∀ i, L ≤ i → r'.buffer[i]? = buffer'[i]?) := by
  refine ⟨?_, fun count => by omega, fun fuel w' s' buffer' r' h => ?_⟩
  · have hF : Feeding w s [] chunks q :=
      ⟨hconf, hrxq, hcnt, fun _ => hdrained, fun h => absurd rfl h⟩
    have hC : ChunksOk cfg [] chunks := ⟨by simp, hchunks⟩
    obtain ⟨w1, s1, cur1, rest1, hF1, hC1, hcat1, hrun1⟩ :=
      skip_ENDs cfg (L : Int) q (by omega) j w s [] chunks (stuff d ++ tail) hF hC
        (by rw [List.nil_append, hwire])
    obtain ⟨w2, s2, cur2, rest2, buffer2, _, _, _, _, hrun2, htake2, _, hfar2⟩ :=
      (decode_payload cfg (L : Int) q d w1 s1 cur1 rest1 buffer 0 tail hF1 hC1 hcat1
        (by rw [hd]; simp) (by omega)).run
    refine ⟨⟨cfg.CONTROLLER_ERROR_BAD_FORMAT, buffer2, w2, s2⟩, ?_, rfl, ?_, ?_⟩
    · have e : j + L + 1 + k = j + (d.length + (k + 1)) := by omega
      rw [usbserialReadSlip, e, hrun1, hrun2]
      simp [usbserialReadSlipLoop, hd]
    · rw [← hd]
      simpa using htake2
    · intro i hi
      exact hfar2 i (by omega)
  · obtain ⟨h1, h2⟩ := loop_writes_below_length cfg (L : Int) fuel w' s' buffer' 0 r' h
    exact ⟨h1, fun i hi => h2 i (by exact_mod_cast hi)⟩

/-- C15 at a concrete input: a buffer of 3 bytes and the stream `END, 1, ESC, ESC_END, 3, 4`
arriving in two receive units: the call returns the error code with `1, END, 3` stored. -/
theorem usbserialReadSlip_bounded_buffer_witness :
    ∃ r, usbserialReadSlip cfg64 (1 + 3 + 1 + 0) (hostSends [[END, 1, ESC, ESC_END], [3, 4]])
        (freshSerial cfg64) [9, 9, 9, 9] ((3 : Nat) : Int) = some r ∧
      r.rv = cfg64.CONTROLLER_ERROR_BAD_FORMAT ∧ r.buffer.take 3 = [1, END, 3] ∧
      ∀ i, 3 ≤ i → r.buffer[i]? = [9, 9, 9, 9][i]? :=
  (usbserialReadSlip_bounded_buffer cfg64 [1, END, 3] [4] 1
    (hostSends [[END, 1, ESC, ESC_END], [3, 4]]) (freshSerial cfg64)
    [[END, 1, ESC, ESC_END], [3, 4]] [] [9, 9, 9, 9] 3 0
    (by decide) (by decide) (by decide) (by decide) (by decide) (by decide) (by decide)
    (by decide) (by decide) (by decide)).1

/-- C16 (a stream of frames): when one receive unit holds the two frames
`END p1' END END p2' END` of non-empty payloads `p1`, `p2` shorter than `length`, and reaches
a drained decoder, the first `usbserialReadSlip` call returns `|p1|` with `p1` in the buffer,
the second returns `|p2|` with `p2` in the buffer, and the second takes nothing from the queue
of receive units, which already after the first call holds what it held behind that unit.
Whatever the input, a call that returns gives the error code or a positive count. -/
theorem usbserialReadSlip_two_frames (cfg : UsbConfig) (p1 p2 : List Nat) (w : UsbWorld)
    (s : UsbSerial) (q : List RxOutcome) (buffer1 buffer2 : List Nat) (L k1 k2 : Nat)
    (hp1 : p1 ≠ []) (hp2 : p2 ≠ []) (hl1 : p1.length < L) (hl2 : p2.length < L)
    (hb1 : L ≤ buffer1.length) (hb2 : L ≤ buffer2.length)
    (hunit : (END :: (stuff p1 ++ END :: END :: (stuff p2 ++ [END]))).length
      ≤ cfg.USBSER_MAX_READ)
    (hconf : w.configured = true)
    (hrxq : w.rxq = RxOutcome.callback true
      (END :: (stuff p1 ++ END :: END :: (stuff p2 ++ [END]))) :: q)
    (hcnt : s.rxBufCount = 0) (hdrained : (s.idx : Int) ≥ s.slipInCount) :
    (∃ r1 r2, usbserialReadSlip cfg (p1.length + 2 + k1) w s buffer1 (L : Int) = some r1 ∧
      r1.rv = (p1.length : Int) ∧ r1.buffer.take p1.length = p1 ∧
      usbserialReadSlip cfg (p2.length + 2 + k2) r1.world r1.serial buffer2 (L : Int)
        = some r2 ∧
      r2.rv = (p2.length : Int) ∧ r2.buffer.take p2.length = p2 ∧
      r1.world.rxq = q ∧ r2.world.rxq = q) ∧
    (∀ (fuel : Nat) (w' : UsbWorld) (s' : UsbSerial) (buffer' : List Nat) (r' : ReadResult),
      usbserialReadSlip cfg fuel w' s' buffer' (L : Int) = some r' →
      r'.rv = cfg.CONTROLLER_ERROR_BAD_FORMAT ∨ 0 < r'.rv) := by
  refine ⟨?_, fun fuel w' s' buffer' r' h => ?_⟩
  · have hF : Feeding w s [] [END :: (stuff p1 ++ END :: END :: (stuff p2 ++ [END]))] q :=
      ⟨hconf, by rw [hrxq]; rfl, hcnt, fun _ => hdrained, fun h => absurd rfl h⟩
    have hlast : (END :: (stuff p1 ++ END :: END :: (stuff p2 ++ [END]))).getLast?
        ≠ some ESC := by
      have e : END :: (stuff p1 ++ END :: END :: (stuff p2 ++ [END]))
          = (END :: (stuff p1 ++ END :: END :: stuff p2)) ++ [END] := by simp
      rw [e, List.getLast?_append]
      show ¬ (some END = some ESC)
      decide
    have hC : ChunksOk cfg [] [END :: (stuff p1 ++ END :: END :: (stuff p2 ++ [END]))] :=
      ⟨by simp, fun c hc => by
        simp only [List.mem_singleton] at hc
        subst hc
        exact ⟨by simp, hunit, hlast⟩⟩
    obtain ⟨w1, s1, cur1, rest1, b1, hF1, hC1, hcat1, _, hlt1, hrun1, htake1, _⟩ :=
      decode_frame cfg (L : Int) w s [] _ q p1 (END :: (stuff p2 ++ [END])) buffer1 hF hC
        (by simp) hp1 (by omega) (by omega)
    have hrest1 : rest1 = [] := by
      have := hlt1 rfl
      simp only [List.length_singleton, Nat.lt_one_iff] at this
      exact List.length_eq_zero.mp this
    subst hrest1
    obtain ⟨w2, s2, cur2, rest2, b2, hF2, _, _, hlen2, _, hrun2, htake2, _⟩ :=
      decode_frame cfg (L : Int) w1 s1 cur1 [] q p2 [] buffer2 hF1 hC1
        hcat1 hp2 (by omega) (by omega)
    have hrest2 : rest2 = [] := by
      simp only [List.length_nil, Nat.le_zero_eq] at hlen2
      exact List.length_eq_zero.mp hlen2
    subst hrest2
    refine ⟨⟨p1.length, b1, w1, s1⟩, ⟨p2.length, b2, w2, s2⟩, hrun1 k1, rfl, htake1,
      hrun2 k2, rfl, htake2, ?_, ?_⟩
    · simpa using hF1.rxq
    · simpa using hF2.rxq
  · rcases loop_returns_error_or_positive cfg (L : Int) fuel w' s' buffer' 0 r' h with h1 | h1
    · exact Or.inl h1
    · exact Or.inr h1.1

/-- C16 at a concrete input: the unit `END, 1, 2, END, END, ESC, ESC_END, END` holds the
frames of the payloads `1, 2` and `END`; two calls return them in order. -/
theorem usbserialReadSlip_two_frames_witness :
    ∃ r1 r2, usbserialReadSlip cfg64 (2 + 2 + 0)
        (hostSends [END :: (stuff [1, 2] ++ END :: END :: (stuff [END] ++ [END]))])
        (freshSerial cfg64) (List.replicate 4 0) ((4 : Nat) : Int) = some r1 ∧
      r1.rv = 2 ∧ r1.buffer.take 2 = [1, 2] ∧
      usbserialReadSlip cfg64 (1 + 2 + 0) r1.world r1.serial (List.replicate 4 0)
        ((4 : Nat) : Int) = some r2 ∧
      r2.rv = 1 ∧ r2.buffer.take 1 = [END] ∧ r1.world.rxq = [] ∧ r2.world.rxq = [] :=
  (usbserialReadSlip_two_frames cfg64 [1, 2] [END]
    (hostSends [END :: (stuff [1, 2] ++ END :: END :: (stuff [END] ++ [END]))])
    (freshSerial cfg64) [] (List.replicate 4 0) (List.replicate 4 0) 4 0 0
    (by decide) (by decide) (by decide) (by decide) (by decide) (by decide) (by decide)
    (by decide) (by decide) (by decide) (by decide)).1

/-- The state that repeats once the frame `END, 7, END` has been read and nothing more
arrives: every further iteration gets 0 from `usbserialRead` and decodes the stale `END` at
`slipInBuf[0]`. -/
theorem stale_END_spin (n : Nat) :
    usbserialReadSlipLoop cfg64 4 n (hostSends [])
      { freshSerial cfg64 with
        rxBuf := [END, 7, END] ++ List.replicate 61 0
        slipInBuf := [END, 7, END] ++ List.replicate 61 0
        slipInCount := 0
        idx := 1 } (List.replicate 4 0) 0 = none := by
  induction n with
  | zero => rfl
  | succ m ih => exact Eq.trans (by rfl) ih

/-- C17 (the code at the failing inputs).  First: reading the frame of `65, 66`, which
arrives in the units `END, 65` and `66, END`, leaves the decoder with the used-up unit
`66, END` in `slipInBuf`; when the USB link is then no longer configured, `usbserialRead`
returns -1, and a call with a 4-byte buffer stores the stale byte 66 from `slipInBuf[0]` four
times and then returns the error code.  Second: after the frame `END, 7, END` was read,
the decoder is in the state shown, and when nothing more arrives (`usbserialRead` returns 0
on every timeout) the next call never returns, whatever the number of loop iterations: it
decodes the stale `END` at `slipInBuf[0]` again and again. -/
theorem usbserialReadSlip_decodes_stale_bytes :
    (usbserialReadSlip cfg64 4 (hostSends [[END, 65], [66, END]]) (freshSerial cfg64)
        (List.replicate 4 0) 4).map (fun r => (r.rv, r.serial))
      = some (2,
          { freshSerial cfg64 with
            rxBuf := [66, END] ++ List.replicate 62 0
            slipInBuf := [66, END] ++ List.replicate 62 0
            slipInCount := 2
            idx := 2 }) ∧
    usbserialReadSlip cfg64 5 ⟨false, [], [], []⟩
        { freshSerial cfg64 with
          rxBuf := [66, END] ++ List.replicate 62 0
          slipInBuf := [66, END] ++ List.replicate 62 0
          slipInCount := 2
          idx := 2 } [9, 9, 9, 9] 4
      = some ⟨cfg64.CONTROLLER_ERROR_BAD_FORMAT, [66, 66, 66, 66], ⟨false, [], [], []⟩,
          { freshSerial cfg64 with
            rxBuf := [66, END] ++ List.replicate 62 0
            slipInBuf := [66, END] ++ List.replicate 62 0
            slipInCount := -1
            idx := 1 }⟩ ∧
    (usbserialReadSlip cfg64 3 (hostSends [[END, 7, END]]) (freshSerial cfg64)
        (List.replicate 4 0) 4).map (fun r => (r.rv, r.world, r.serial))
      = some (1, hostSends [],
          { freshSerial cfg64 with
            rxBuf := [END, 7, END] ++ List.replicate 61 0
            slipInBuf := [END, 7, END] ++ List.replicate 61 0
            slipInCount := 3
            idx := 3 }) ∧
    ∀ fuel, usbserialReadSlip cfg64 fuel (hostSends [])
        { freshSerial cfg64 with
          rxBuf := [END, 7, END] ++ List.replicate 61 0
          slipInBuf := [END, 7, END] ++ List.replicate 61 0
          slipInCount := 3
          idx := 3 } (List.replicate 4 0) 4 = none := by
  refine ⟨by decide, by decide, by decide, ?_⟩
  intro fuel
  match fuel with
  | 0 => rfl
  | n + 1 => exact Eq.trans (by rfl) (stale_END_spin n)

/-! ### SLIP encoder: return value -/

set_option maxRecDepth 4000

/-- C18 (the code at the failing inputs): a payload of 70 plain bytes is sent in two units of
64 and 8 bytes.  When the first `usbserialWrite` times out (it returns -1) and the second
flushes its 8 bytes, `usbserialWriteSlip` returns 7, not the 8 bytes flushed; when no write
completes at all it returns -2, not 0. -/
theorem usbserialWriteSlip_counts_failed_writes :
    (usbserialWriteSlip cfg64
        ⟨true, [], [TxOutcome.noCallback, TxOutcome.callback true 8 0], []⟩
        (freshSerial cfg64) (List.replicate 70 7)).map
        (fun r => (r.rv, r.world.wlog.map List.length)) = some (7, [64, 8]) ∧
    (usbserialWriteSlip cfg64 ⟨true, [], [], []⟩
        (freshSerial cfg64) (List.replicate 70 7)).map
        (fun r => (r.rv, r.world.wlog.map List.length)) = some (-2, [64, 8]) := by
  decide

/-! ### OSC sets that are rejected, the active flag and the MAC address -/

/-- C21 (read-only mac): for every argument list, `NetworkOsc_PropertySet` on property 5
(`mac`) sends exactly the error reply "MAC is read only." tagged `network`, returns what
`Osc_SubsystemError` returns, and leaves the whole board as it was: the six MAC bytes, the
persisted address, mask, gateway and checksum, the validity flag and the active flag.  No
other property answers a set with that text. -/
theorem NetworkOsc_PropertySet_mac_read_only (env : OscEnv) (s : OscState)
    (typedata : List OscArg) (channel : Int) :
    (NetworkOsc_PropertySet env s 5 typedata channel).2.out
      = s.out ++ [(channel, OscReply.error "network" "MAC is read only.")] ∧
    (NetworkOsc_PropertySet env s 5 typedata channel).2.board = s.board ∧
    (NetworkOsc_PropertySet env s 5 typedata channel).1 = env.subsystemErrorStatus ∧
    ∀ (p : Int) (td : List OscArg), p ≠ 5 →
      (channel, OscReply.error "network" "MAC is read only.")
        ∉ (NetworkOsc_PropertySet env { s with out := [] } p td channel).2.out := by
  refine ⟨by simp [NetworkOsc_PropertySet, Osc_SubsystemError, NetworkOsc_Name],
    by simp [NetworkOsc_PropertySet, Osc_SubsystemError],
    by simp [NetworkOsc_PropertySet, Osc_SubsystemError], ?_⟩
  intro p td hp
  simp only [NetworkOsc_PropertySet, Osc_SubsystemError, NetworkOsc_Name, hp, if_false]
  repeat' split
  all_goals simp

/-- C25 (the code at the failing input): a board activated with `Network_SetActive(1)` and
then given `Network_SetActive(0)` still reports `Network_GetActive() = 1`: the function has
no branch for a zero argument. -/
theorem Network_SetActive_zero_keeps_active :
    Network_GetActive (Network_SetActive (bootBoard 0 ⟨0, 0, 0, 0, 0⟩) 1).2 = 1 ∧
    Network_GetActive
      (Network_SetActive (Network_SetActive (bootBoard 0 ⟨0, 0, 0, 0, 0⟩) 1).2 0).2 = 1 := by
  decide

/-- C26 (the code at the failing input): the serial numbers 0 and 65536, both below `2^20`,
give the same MAC address AC:DE:48:50:00:00, because the low nibble of byte 3 is taken from
bits 12..15 of the serial number, which byte 4 holds already, and bits 16..19 are not used. -/
theorem Network_Init_same_mac_for_two_serial_numbers :
    (Network_Init (bootBoard 0 ⟨0, 0, 0, 0, 0⟩)).2.mac = ⟨172, 222, 72, 80, 0, 0⟩ ∧
    (Network_Init (bootBoard 65536 ⟨0, 0, 0, 0, 0⟩)).2.mac = ⟨172, 222, 72, 80, 0, 0⟩ ∧
    (Network_Init (bootBoard 4096 ⟨0, 0, 0, 0, 0⟩)).2.mac = ⟨172, 222, 72, 81, 16, 0⟩ := by
  decide

/-! ### Sockets: datagram receive, network bring-up and close -/

theorem netbuf_copy_full (buf data : List Nat) :
    netbuf_copy buf data (data.length : Int)
      = buf.take data.length ++ data.drop (min data.length buf.length) := by
  simp [netbuf_copy, netbuf_copy_partial]

/-- C23 (datagram truncation): for a received datagram and a caller buffer `data` whose
length is passed as `length`, `DatagramSocketReceive` returns the smaller of the two lengths
(the buffer length when the datagram is longer), which is never negative; the buffer keeps
its length and starts with that many first bytes of the datagram; the address reported is
`ntohl` of the sender's address of that datagram and the port is its sender's port; the
datagram is taken off the connection. -/
theorem DatagramSocketReceive_truncates (bound : Option Int) (dg : Datagram)
    (q : List (Option Datagram)) (incomingPort : Int) (data : List Nat) :
    ∃ r, DatagramSocketReceive ⟨bound, some dg :: q⟩ incomingPort data (data.length : Int)
        = some r ∧
      r.rv = ((min data.length dg.payload.length : Nat) : Int) ∧
      (data.length < dg.payload.length → r.rv = (data.length : Int)) ∧
      r.data.take (min data.length dg.payload.length)
        = dg.payload.take (min data.length dg.payload.length) ∧
      r.data.length = data.length ∧
      r.address = ntohl dg.fromaddr ∧ r.port = dg.fromport ∧ r.world.recvq = q := by
  by_cases h : (data.length : Int) > netbuf_len dg.payload
  · have h1 : dg.payload.length < data.length := by
      simp only [netbuf_len] at h; omega
    refine ⟨⟨netbuf_len dg.payload, ntohl dg.fromaddr, dg.fromport,
      netbuf_copy dg.payload data (data.length : Int), ⟨some incomingPort, q⟩⟩, ?_, ?_, ?_, ?_,
      ?_, rfl, rfl, rfl⟩
    · simp only [DatagramSocketReceive, h, if_true]
    · simp only [netbuf_len]; rw [Nat.min_eq_right (Nat.le_of_lt h1)]
    · intro h2; omega
    · simp only [netbuf_copy_full]
      rw [Nat.min_eq_right (Nat.le_of_lt h1), List.take_of_length_le (Nat.le_refl _)]
      rw [List.take_of_length_le (Nat.le_of_lt h1)]
      exact List.take_left' rfl
    · simp only [netbuf_copy_full, List.length_append, List.length_take, List.length_drop]
      omega
  · have h1 : data.length ≤ dg.payload.length := by
      simp only [netbuf_len] at h; omega
    refine ⟨⟨(data.length : Int), ntohl dg.fromaddr, dg.fromport,
      netbuf_copy dg.payload data (data.length : Int), ⟨some incomingPort, q⟩⟩, ?_, ?_, ?_, ?_,
      ?_, rfl, rfl, rfl⟩
    · simp only [DatagramSocketReceive, h, if_false]
    · rw [Nat.min_eq_left h1]
    · intro _; rfl
    · simp only [netbuf_copy_full]
      rw [Nat.min_eq_left h1]
      exact List.take_left' (by simp [h1])
    · simp only [netbuf_copy_full, List.length_append, List.length_take, List.length_drop]
      omega

theorem Network_SetActive_initCount (b : Board) (state : Int) :
    (Network_SetActive b state).2.initCount
      = b.initCount + (if state ≠ 0 ∧ b.net.Network_Active = 0 then 1 else 0) ∧
    ((Network_SetActive b state).2.net.Network_Active ≠ 0
      ↔ (b.net.Network_Active ≠ 0 ∨ state ≠ 0)) := by
  by_cases hs : state = 0
  · simp [Network_SetActive, hs]
  · by_cases ha : b.net.Network_Active = 0
    · simp [Network_SetActive, Network_Init, hs, ha]
    · simp [Network_SetActive, hs, ha]

theorem openStep_spec (s : Board × NetStack) (c : OpenCall) :
    (openStep s c).1.initCount
      = s.1.initCount
        + (if c.requestsActivation = true ∧ s.1.net.Network_Active = 0 then 1 else 0) ∧
    ((openStep s c).1.net.Network_Active ≠ 0
      ↔ (s.1.net.Network_Active ≠ 0 ∨ c.requestsActivation = true)) := by
  have h1 := Network_SetActive_initCount s.1 1
  cases c with
  | socket address port =>
    simp only [openStep, Socket, OpenCall.requestsActivation]
    constructor
    · split <;> simpa using h1.1
    · split <;> simpa using h1.2
  | serverSocket port =>
    simp only [openStep, ServerSocket, OpenCall.requestsActivation]
    exact ⟨by simpa using h1.1, by simpa using h1.2⟩
  | datagramSocket port =>
    simp only [openStep, DatagramSocket, OpenCall.requestsActivation]
    exact ⟨by simpa using h1.1, by simpa using h1.2⟩
  | setActive state =>
    have h2 := Network_SetActive_initCount s.1 state
    simp only [openStep, OpenCall.requestsActivation]
    exact ⟨by simpa using h2.1, by simpa using h2.2⟩

theorem openRun_spec (calls : List OpenCall) : ∀ (s : Board × NetStack),
    (openRun s calls).1.initCount
      = s.1.initCount + (if s.1.net.Network_Active = 0 ∧
          calls.any OpenCall.requestsActivation = true then 1 else 0) ∧
    ((openRun s calls).1.net.Network_Active ≠ 0
      ↔ (s.1.net.Network_Active ≠ 0 ∨ calls.any OpenCall.requestsActivation = true)) := by
  induction calls with
  | nil => intro s; simp [openRun]
  | cons c cs ih =>
    intro s
    have hs := openStep_spec s c
    have hr := ih (openStep s c)
    have e : openRun s (c :: cs) = openRun (openStep s c) cs := rfl
    rw [e, hr.1, hs.1, hr.2]
    by_cases ha : s.1.net.Network_Active = 0
    · by_cases hc : c.requestsActivation = true
      · have hz : (openStep s c).1.net.Network_Active ≠ 0 := hs.2.mpr (Or.inr hc)
        simp [ha, hc, hz]
      · have hz : (openStep s c).1.net.Network_Active = 0 := by
          by_contra hne
          rcases hs.2.mp hne with h | h
          · exact h ha
          · exact hc h
        simp [ha, hc, hz]
    · have hz : (openStep s c).1.net.Network_Active ≠ 0 := hs.2.mpr (Or.inl ha)
      simp [ha, hz]

/-- C24 (network bring-up happens once, lazily): from a board that is not active, after
every sequence of `Socket`, `ServerSocket`, `DatagramSocket` and `Network_SetActive` calls
`Network_Init` has run once if some call of the sequence requested activation and not at all
otherwise, and `Network_GetActive()` is non-zero exactly in the first case; a further call
runs `Network_Init` only if it requests activation and no earlier call did. -/
theorem Network_Init_runs_once_lazily (b : Board) (n : NetStack) (calls : List OpenCall)
    (c : OpenCall) (h : b.net.Network_Active = 0) :
    (openRun (b, n) calls).1.initCount
      = b.initCount + (if calls.any OpenCall.requestsActivation = true then 1 else 0) ∧
    (Network_GetActive (openRun (b, n) calls).1 ≠ 0
      ↔ calls.any OpenCall.requestsActivation = true) ∧
    (openStep (openRun (b, n) calls) c).1.initCount
      = (openRun (b, n) calls).1.initCount
        + (if c.requestsActivation = true ∧ calls.any OpenCall.requestsActivation = false
            then 1 else 0) := by
  have hr := openRun_spec calls (b, n)
  have hs := openStep_spec (openRun (b, n) calls) c
  have hact : (openRun (b, n) calls).1.net.Network_Active ≠ 0
      ↔ calls.any OpenCall.requestsActivation = true := by
    rw [hr.2]; simp [h]
  refine ⟨by rw [hr.1]; simp [h], hact, ?_⟩
  rw [hs.1]
  by_cases hany : calls.any OpenCall.requestsActivation = true
  · have hz := hact.mpr hany
    simp [hany, hz]
  · have hz : (openRun (b, n) calls).1.net.Network_Active = 0 := by
      by_contra hne
      exact hany (hact.mp hne)
    have hf : calls.any OpenCall.requestsActivation = false := by
      simpa using hany
    simp [hf, hz]

/-- C24 at a concrete input: a board after reset, a call `Network_SetActive( 0 )`, then a
`Socket` and a `DatagramSocket` call; a `ServerSocket` call follows. -/
theorem Network_Init_runs_once_lazily_witness :
    (bootBoard 0 ⟨0, 0, 0, 0, 0⟩).net.Network_Active = 0 ∧
    (openRun (bootBoard 0 ⟨0, 0, 0, 0, 0⟩, freshStack [0])
      [OpenCall.setActive 0, OpenCall.socket (IP_ADDRESS 192 168 0 54) 10101,
        OpenCall.datagramSocket 10000]).1.initCount = 1 ∧
    (openStep (openRun (bootBoard 0 ⟨0, 0, 0, 0, 0⟩, freshStack [0])
      [OpenCall.setActive 0, OpenCall.socket (IP_ADDRESS 192 168 0 54) 10101,
        OpenCall.datagramSocket 10000]) (OpenCall.serverSocket 80)).1.initCount = 1 := by
  have h := Network_Init_runs_once_lazily (bootBoard 0 ⟨0, 0, 0, 0, 0⟩) (freshStack [0])
    [OpenCall.setActive 0, OpenCall.socket (IP_ADDRESS 192 168 0 54) 10101, OpenCall.datagramSocket 10000]
    (OpenCall.serverSocket 80) (by decide)
  exact ⟨by decide, h.1, by rw [h.2.2, h.1]; decide⟩

/-- C27 (counterexample): `Socket` connects and returns the handle 1; the first `SocketClose`
applies nothing to an absent connection, the second applies `netconn_close` and
`netconn_delete` to the connection that the first deleted.  With a connection attempt that
fails `Socket` returns `NULL`, and `SocketClose` applies both calls to `NULL`. -/
theorem SocketClose_twice_or_NULL_misapplies :
    (Socket (bootBoard 0 ⟨0, 0, 0, 0, 0⟩) (freshStack [0]) (IP_ADDRESS 192 168 0 54) 10101).1 = some 1 ∧
    (SocketClose (Socket (bootBoard 0 ⟨0, 0, 0, 0, 0⟩) (freshStack [0]) (IP_ADDRESS 192 168 0 54) 10101).2.2
      (some 1)).misapplied = [] ∧
    (SocketClose
      (SocketClose (Socket (bootBoard 0 ⟨0, 0, 0, 0, 0⟩) (freshStack [0]) (IP_ADDRESS 192 168 0 54) 10101).2.2
        (some 1)) (some 1)).misapplied = [some 1, some 1] ∧
    (Socket (bootBoard 0 ⟨0, 0, 0, 0, 0⟩) (freshStack [-1]) (IP_ADDRESS 192 168 0 54) 10101).1 = none ∧
    (SocketClose (Socket (bootBoard 0 ⟨0, 0, 0, 0, 0⟩) (freshStack [-1]) (IP_ADDRESS 192 168 0 54) 10101).2.2
      none).misapplied = [none, none] := by
  decide

theorem close_live (n : NetStack) (id : Nat) (h : id ∈ n.live) :
    (netconn_delete (netconn_close n (some id)) (some id)).misapplied = n.misapplied ∧
    id ∉ (netconn_delete (netconn_close n (some id)) (some id)).live ∧
    (netconn_delete (netconn_close
      (netconn_delete (netconn_close n (some id)) (some id)) (some id)) (some id)).misapplied
      = n.misapplied ++ [some id, some id] := by
  have h1 : netconn_close n (some id) = n := by simp [netconn_close, netconn_use, h]
  have h2 : netconn_delete n (some id)
      = { n with live := n.live.filter (fun x => x ≠ id) } := by
    simp [netconn_delete, netconn_use, h]
  rw [h1, h2]
  refine ⟨rfl, by simp, ?_⟩
  simp [netconn_close, netconn_delete, netconn_use]

/-- C27 (amended): a close of a live connection, by `SocketClose`, `DatagramSocketClose` or
`ServerSocketClose`, applies no call of the stack to an absent or deleted connection and
leaves the connection deleted; a second `SocketClose` of the same handle applies
`netconn_close` and `netconn_delete` to the deleted connection, and a `SocketClose` of the
`NULL` handle applies both to `NULL`. -/
theorem close_once_of_live_connection (n : NetStack) (id : Nat) (h : id ∈ n.live) :
    (SocketClose n (some id)).misapplied = n.misapplied ∧
    id ∉ (SocketClose n (some id)).live ∧
    (DatagramSocketClose n (some id)).misapplied = n.misapplied ∧
    id ∉ (DatagramSocketClose n (some id)).live ∧
    (ServerSocketClose n (some id)).2.misapplied = n.misapplied ∧
    id ∉ (ServerSocketClose n (some id)).2.live ∧
    (SocketClose (SocketClose n (some id)) (some id)).misapplied
      = n.misapplied ++ [some id, some id] ∧
    (SocketClose n none).misapplied = n.misapplied ++ [none, none] := by
  have hc := close_live n id h
  refine ⟨hc.1, hc.2.1, hc.1, hc.2.1, hc.1, hc.2.1, hc.2.2, ?_⟩
  simp [SocketClose, netconn_close, netconn_delete, netconn_use]

/-- C27 (amended) at a concrete input: the handles that `Socket`, `DatagramSocket` and
`ServerSocket` return on a fresh stack are live, and one close of the `Socket` handle
misapplies nothing. -/
theorem close_once_of_live_connection_witness :
    (Socket (bootBoard 0 ⟨0, 0, 0, 0, 0⟩) (freshStack [0]) (IP_ADDRESS 192 168 0 54) 10101).1 = some 1 ∧
    1 ∈ (Socket (bootBoard 0 ⟨0, 0, 0, 0, 0⟩) (freshStack [0]) (IP_ADDRESS 192 168 0 54) 10101).2.2.live ∧
    (DatagramSocket (bootBoard 0 ⟨0, 0, 0, 0, 0⟩) (freshStack []) 10000).1 = some 1 ∧
    1 ∈ (DatagramSocket (bootBoard 0 ⟨0, 0, 0, 0, 0⟩) (freshStack []) 10000).2.2.live ∧
    (ServerSocket (bootBoard 0 ⟨0, 0, 0, 0, 0⟩) (freshStack []) 80).1 = some 1 ∧
    1 ∈ (ServerSocket (bootBoard 0 ⟨0, 0, 0, 0, 0⟩) (freshStack []) 80).2.2.live ∧
    (SocketClose (Socket (bootBoard 0 ⟨0, 0, 0, 0, 0⟩) (freshStack [0]) (IP_ADDRESS 192 168 0 54) 10101).2.2
      (some 1)).misapplied = [] :=
  ⟨by decide, by decide, by decide, by decide, by decide, by decide,
    (close_once_of_live_connection
      (Socket (bootBoard 0 ⟨0, 0, 0, 0, 0⟩) (freshStack [0]) (IP_ADDRESS 192 168 0 54) 10101).2.2 1
      (by decide)).1⟩

/-! ### SLIP: one frame in one receive unit, a frame that fills the buffer, the wire bytes -/

/-- C28 (single-unit round trip): for every non-empty payload `b` shorter than `length`
that fits the caller's buffer, when the frame `END, stuff(b), END` is at most
`USBSER_MAX_READ` bytes long and is the one receive unit that the next underlying read
delivers to a drained decoder, `usbserialReadSlip` returns `|b|` with `b` in the first `|b|`
bytes of the buffer, after `|b| + 2` loop iterations, and has taken that one unit from the
queue of receive units.  The bytes of the frame are the ones that `usbserialWriteSlip` hands
to `usbserialWrite` for `b`. -/
theorem usbserialReadSlip_single_unit_roundTrip (cfg : UsbConfig) (b : List Nat)
    (w0 : UsbWorld) (s0 : UsbSerial) (w : UsbWorld) (s : UsbSerial) (q : List RxOutcome)
    (buffer : List Nat) (L : Int) (k : Nat)
    (hb : b ≠ []) (hl : (b.length : Int) < L) (hbuf : b.length ≤ buffer.length)
    (hM : 2 ≤ cfg.USBSER_MAX_WRITE) (hs0 : s0.slipOutBuf.length = cfg.USBSER_MAX_WRITE)
    (hunit : (END :: (stuff b ++ [END])).length ≤ cfg.USBSER_MAX_READ)
    (hconf : w.configured = true)
    (hrxq : w.rxq = RxOutcome.callback true (END :: (stuff b ++ [END])) :: q)
    (hcnt : s.rxBufCount = 0) (hdrained : (s.idx : Int) ≥ s.slipInCount) :
    (∃ r, usbserialReadSlip cfg (b.length + 2 + k) w s buffer L = some r ∧
      r.rv = (b.length : Int) ∧ r.buffer.take b.length = b ∧ r.world.rxq = q) ∧
    (∃ r0 sent, usbserialWriteSlip cfg w0 s0 b = some r0 ∧ r0.world.wlog = w0.wlog ++ sent ∧
      sent.flatten = END :: (stuff b ++ [END])) := by
  constructor
  · have hF : Feeding w s [] [END :: (stuff b ++ [END])] q :=
      ⟨hconf, by rw [hrxq]; rfl, hcnt, fun _ => hdrained, fun h => absurd rfl h⟩
    have hlast : (END :: (stuff b ++ [END])).getLast? ≠ some ESC := by
      have e : END :: (stuff b ++ [END]) = (END :: stuff b) ++ [END] := by simp
      rw [e, List.getLast?_append]
      show ¬ (some END = some ESC)
      decide
    have hC : ChunksOk cfg [] [END :: (stuff b ++ [END])] :=
      ⟨by simp, fun c hc => by
        simp only [List.mem_singleton] at hc
        subst hc
        exact ⟨by simp, hunit, hlast⟩⟩
    obtain ⟨w1, s1, cur1, rest1, b1, hF1, _, _, _, hlt1, hrun1, htake1, _⟩ :=
      decode_frame cfg L w s [] _ q b [] buffer hF hC (by simp) hb hl hbuf
    have hrest1 : rest1 = [] := by
      have := hlt1 rfl
      simp only [List.length_singleton, Nat.lt_one_iff] at this
      exact List.length_eq_zero.mp this
    subst hrest1
    exact ⟨⟨b.length, b1, w1, s1⟩, hrun1 k, rfl, htake1, by simpa using hF1.rxq⟩
  · obtain ⟨r0, ws, hr, hlog, _, hflat⟩ := usbserialWriteSlip_spec cfg w0 s0 b hM hs0
    exact ⟨r0, ws, hr, hlog, by rw [hflat]; rfl⟩

/-- C28 at a concrete input: the payload `1, END, ESC, 2` arrives as the one unit
`END, 1, ESC, ESC_END, ESC, ESC_ESC, 2, END`; a read with `length` 5 returns 4 and the buffer
starts with the payload. -/
theorem usbserialReadSlip_single_unit_roundTrip_witness :
    ∃ r, usbserialReadSlip cfg64 (4 + 2 + 0)
        (hostSends [[END, 1, ESC, ESC_END, ESC, ESC_ESC, 2, END]]) (freshSerial cfg64)
        (List.replicate 5 0) 5 = some r ∧
      r.rv = 4 ∧ r.buffer.take 4 = [1, END, ESC, 2] ∧ r.world.rxq = [] :=
  (usbserialReadSlip_single_unit_roundTrip cfg64 [1, END, ESC, 2] (hostSends [])
    (freshSerial cfg64) (hostSends [[END, 1, ESC, ESC_END, ESC, ESC_ESC, 2, END]])
    (freshSerial cfg64) [] (List.replicate 5 0) 5 0
    (by decide) (by decide) (by decide) (by decide) (by decide) (by decide) (by decide)
    (by decide) (by decide) (by decide)).1

/-- C29 (the code at the failing input): the complete frame `END, 1, 2, END` of the 2-byte
payload `1, 2` reaches a drained decoder in one unit.  A call with `length` 2 stores both
bytes and returns `CONTROLLER_ERROR_BAD_FORMAT`, not 2: the loop test `received < length`
fails before the closing `END` is looked at.  The same frame read with `length` 3 returns
2, and with `length` 2 the frame `END, 1, END` of a 1-byte payload returns 1. -/
theorem usbserialReadSlip_exact_fill_returns_error :
    (usbserialReadSlip cfg64 8 (hostSends [[END, 1, 2, END]]) (freshSerial cfg64)
        (List.replicate 2 0) 2).map (fun r => (r.rv, r.buffer))
      = some (cfg64.CONTROLLER_ERROR_BAD_FORMAT, [1, 2]) ∧
    (usbserialReadSlip cfg64 8 (hostSends [[END, 1, 2, END]]) (freshSerial cfg64)
        (List.replicate 3 0) 3).map (fun r => (r.rv, r.buffer)) = some (2, [1, 2, 0]) ∧
    (usbserialReadSlip cfg64 8 (hostSends [[END, 1, END]]) (freshSerial cfg64)
        (List.replicate 2 0) 2).map (fun r => (r.rv, r.buffer)) = some (1, [1, 0]) := by
  decide

theorem stuff_cons (c : Nat) (cs : List Nat) : stuff (c :: cs) = stuffByte c ++ stuff cs := by
  simp [stuff]

theorem END_not_mem_stuff (b : List Nat) : END ∉ stuff b := by
  induction b with
  | nil => simp [stuff]
  | cons c cs ih =>
    rw [stuff_cons, List.mem_append]
    rintro (h | h)
    · unfold stuffByte at h
      split at h
      · simp [END, ESC, ESC_END] at h
      · split at h
        · simp [END, ESC, ESC_ESC] at h
        · rename_i hc _
          simp only [List.mem_singleton] at h
          exact hc h.symm
    · exact ih h

theorem ESC_in_stuff_is_followed (b : List Nat) : ∀ i : Nat, (stuff b)[i]? = some ESC →
    (stuff b)[i + 1]? = some ESC_END ∨ (stuff b)[i + 1]? = some ESC_ESC := by
  induction b with
  | nil => intro i h; simp [stuff] at h
  | cons c cs ih =>
    intro i h
    rw [stuff_cons] at h ⊢
    by_cases hE : c = END
    · have e : stuffByte c = [ESC, ESC_END] := by simp [stuffByte, hE]
      rw [e] at h ⊢
      match i, h with
      | 0, _ => left; simp
      | 1, h => simp [ESC, ESC_END] at h
      | j + 2, h =>
        have h1 : (stuff cs)[j]? = some ESC := by simpa using h
        simpa using ih j h1
    · by_cases hS : c = ESC
      · have e : stuffByte c = [ESC, ESC_ESC] := by simp [stuffByte, hE, hS, ESC, END]
        rw [e] at h ⊢
        match i, h with
        | 0, _ => right; simp
        | 1, h => simp [ESC, ESC_ESC] at h
        | j + 2, h =>
          have h1 : (stuff cs)[j]? = some ESC := by simpa using h
          simpa using ih j h1
      · have e : stuffByte c = [c] := by simp [stuffByte, hE, hS]
        rw [e] at h ⊢
        match i, h with
        | 0, h =>
          have : c = ESC := by simpa using h
          exact absurd this hS
        | j + 1, h =>
          have h1 : (stuff cs)[j]? = some ESC := by simpa using h
          simpa using ih j h1

/-- C30 (no false frame boundary on the wire): for every payload `b`, the bytes that
`usbserialWriteSlip` hands to `usbserialWrite`, taken in order, are `END`, a middle part and
`END`, where no byte of the middle part is `END` and every `ESC` of the middle part is
followed, inside the middle part, by `ESC_END` or `ESC_ESC`.  The array `slipOutBuf` has
`USBSER_MAX_WRITE` cells and that constant is at least 2. -/
theorem usbserialWriteSlip_no_false_boundary (cfg : UsbConfig) (w : UsbWorld) (s : UsbSerial)
    (b : List Nat) (hM : 2 ≤ cfg.USBSER_MAX_WRITE)
    (hs : s.slipOutBuf.length = cfg.USBSER_MAX_WRITE) :
    ∃ r sent mid, usbserialWriteSlip cfg w s b = some r ∧ r.world.wlog = w.wlog ++ sent ∧
      sent.flatten = END :: (mid ++ [END]) ∧ END ∉ mid ∧
      ∀ i : Nat, mid[i]? = some ESC →
        mid[i + 1]? = some ESC_END ∨ mid[i + 1]? = some ESC_ESC := by
  obtain ⟨r, ws, hr, hlog, _, hflat⟩ := usbserialWriteSlip_spec cfg w s b hM hs
  exact ⟨r, ws, stuff b, hr, hlog, by rw [hflat]; rfl, END_not_mem_stuff b,
    ESC_in_stuff_is_followed b⟩

/-- C30 at a concrete input: with 4-byte transmit units the payload `END, ESC, 7, END`
leaves as `END, ESC, ESC_END, ESC, ESC_ESC, 7, ESC, ESC_END, END`. -/
theorem usbserialWriteSlip_no_false_boundary_witness :
    2 ≤ (UsbConfig.mk 64 4 (-1)).USBSER_MAX_WRITE ∧
    ∃ r sent mid, usbserialWriteSlip ⟨64, 4, -1⟩ (hostSends []) (freshSerial ⟨64, 4, -1⟩)
        [END, ESC, 7, END] = some r ∧ r.world.wlog = [] ++ sent ∧
      sent.flatten = END :: (mid ++ [END]) ∧ END ∉ mid ∧
      ∀ i : Nat, mid[i]? = some ESC →
        mid[i + 1]? = some ESC_END ∨ mid[i + 1]? = some ESC_ESC :=
  ⟨by decide, usbserialWriteSlip_no_false_boundary ⟨64, 4, -1⟩ (hostSends [])
    (freshSerial ⟨64, 4, -1⟩) [END, ESC, 7, END] (by decide) (by decide)⟩

end MakeController
